import Mathlib

/-!
# Screensaver physics engine (`screensaver-c/secuencial/main_sec.cpp`)

A shallow embedding of the simulation core of the sequential screensaver:
bodies, parameters, wall confinement, elastic collision between the main
bodies, signed gravity with the post-ejection ramp, the ejection trigger and
the per-frame `step`.

Arithmetic model.  The C++ code computes in `float`.  Here every `float` is an
element of an arbitrary linearly ordered field `F` (exact arithmetic, no
rounding, no NaN or infinity), and `std::sqrt` is a parameter `sqrt : F → F`
of every function that calls it.  All definitions are computable, so they can
be evaluated over `ℚ`; statements that depend on what the square root
computes are stated over `ℝ` with `Real.sqrt`.  The `int` fields of
`SimParams` are integers and are cast where the code converts them to `float`.
The literals `0.0001f`, `1e-6f` and `0.5f` are the rationals they denote.
-/

namespace Screensaver

/-! ## Data model -/

/-- The SDL colour record: four 8-bit channels, opaque to the physics. -/
structure SDL_Color where
  r : Nat
  g : Nat
  b : Nat
  a : Nat
  deriving DecidableEq, Repr

/-- The `Body` struct: position, velocity, radius, mass, colour, the
main-body flag and the ejection cooldown. -/
structure Body (F : Type) where
  x : F
  y : F
  vx : F
  vy : F
  radius : F
  mass : F
  color : SDL_Color
  is_main : Bool
  eject_cooldown : F
  deriving DecidableEq, Repr

/-- The `SimParams` struct. -/
structure SimParams (F : Type) where
  width : Int
  height : Int
  N : Int
  G : F
  mainRadiusA : F
  mainRadiusB : F
  mainMassA : F
  mainMassB : F
  mainInitSpeed : F
  mainDamping : F
  mainSignA : F
  mainSignB : F
  satRadius : F
  satMass : F
  maxInitSpeed : F
  ejectSpeed : F
  ejectCooldownSec : F
  postEjectGravityFactor : F
  wallRestitution : F
  softening : F
  benchmark : Bool
  benchmarkFrames : Int
  deriving DecidableEq, Repr

/-- The `SimState` struct: four main bodies and the satellite vector. -/
structure SimState (F : Type) where
  mainA : Body F
  mainB : Body F
  mainA2 : Body F
  mainB2 : Body F
  sats : List (Body F)
  deriving DecidableEq, Repr

section Defs

variable {F : Type} [LinearOrderedField F]

/-- The default member initialisers of `Body`. -/
def Body.init : Body F :=
  { x := 0, y := 0, vx := 0, vy := 0, radius := 5, mass := 1,
    color := ⟨255, 255, 255, 255⟩, is_main := false, eject_cooldown := 0 }

/-- The default member initialisers of `SimParams`. -/
def SimParams.init : SimParams F :=
  { width := 960, height := 540, N := 10000, G := 61 / 2,
    mainRadiusA := 14, mainRadiusB := 14,
    mainMassA := 50000, mainMassB := 1000000,
    mainInitSpeed := 100, mainDamping := 1,
    mainSignA := 1, mainSignB := -1,
    satRadius := 4, satMass := 1, maxInitSpeed := 60,
    ejectSpeed := 200, ejectCooldownSec := 3 / 5,
    postEjectGravityFactor := 7 / 20,
    wallRestitution := 19 / 20, softening := 8,
    benchmark := false, benchmarkFrames := 500 }

/-! ## Utilities -/

/-- The function `clampf(x, a, b) = std::max(a, std::min(b, x))`. -/
def clampf (x a b : F) : F := max a (min b x)

/-! ## Physics -/

/-- The function `resolveElasticCollision(a, b)`: the pair after the call.  The three early
returns of the source are the three `if … then` exits. -/
def resolveElasticCollision (sqrt : F → F) (a b : Body F) : Body F × Body F :=
  let dx := b.x - a.x
  let dy := b.y - a.y
  let dist2 := dx * dx + dy * dy
  let minDist := a.radius + b.radius
  if dist2 ≤ 1 / 10000 then (a, b) else
  let dist := sqrt dist2
  if dist ≥ minDist then (a, b) else
  let overlap := 1 / 2 * (minDist - dist)
  let nx := dx / dist
  let ny := dy / dist
  let a1 : Body F := { a with x := a.x - nx * overlap, y := a.y - ny * overlap }
  let b1 : Body F := { b with x := b.x + nx * overlap, y := b.y + ny * overlap }
  let rvx := b1.vx - a1.vx
  let rvy := b1.vy - a1.vy
  let relVel := rvx * nx + rvy * ny
  if relVel > 0 then (a1, b1) else
  let m1 := a1.mass
  let m2 := b1.mass
  let e : F := 1
  let j := -(1 + e) * relVel / (1 / m1 + 1 / m2)
  let jx := j * nx
  let jy := j * ny
  ({ a1 with vx := a1.vx - jx / m1, vy := a1.vy - jy / m1 },
   { b1 with vx := b1.vx + jx / m2, vy := b1.vy + jy / m2 })

/-- The function `bounceWalls(b, p)`: four `if` statements executed in sequence, each one
reading the body left by the previous one. -/
def bounceWalls (b : Body F) (p : SimParams F) : Body F :=
  let b1 : Body F :=
    if b.x - b.radius < 0 then
      { b with x := b.radius, vx := -b.vx * p.wallRestitution } else b
  let b2 : Body F :=
    if b1.x + b1.radius > (p.width : F) then
      { b1 with x := (p.width : F) - b1.radius, vx := -b1.vx * p.wallRestitution } else b1
  let b3 : Body F :=
    if b2.y - b2.radius < 0 then
      { b2 with y := b2.radius, vy := -b2.vy * p.wallRestitution } else b2
  if b3.y + b3.radius > (p.height : F) then
    { b3 with y := (p.height : F) - b3.radius, vy := -b3.vy * p.wallRestitution } else b3

/-- The lambda `gravOne` of `applyGravityFromMains`: one main's pull added to
the velocity of the captured satellite `s`. -/
def gravOne (sqrt : F → F) (p : SimParams F) (dt : F) (s M : Body F)
    (sign factor : F) : Body F :=
  let dx := M.x - s.x
  let dy := M.y - s.y
  let r2 := dx * dx + dy * dy + p.softening * p.softening
  let invr := 1 / sqrt r2
  let invr3 := invr * invr * invr
  let ax := sign * factor * p.G * M.mass * dx * invr3
  let ay := sign * factor * p.G * M.mass * dy * invr3
  { s with vx := s.vx + ax * dt, vy := s.vy + ay * dt }

/-- The gravity ramp factor computed at the top of `applyGravityFromMains`,
as a function of the satellite's cooldown. -/
def gravityFactor (p : SimParams F) (cooldown : F) : F :=
  if cooldown > 0 ∧ p.ejectCooldownSec > 0 then
    let t := 1 - clampf (cooldown / p.ejectCooldownSec) 0 1
    p.postEjectGravityFactor + (1 - p.postEjectGravityFactor) * t
  else 1

/-- The function `applyGravityFromMains(s, A, B, A2, B2, p, dt)`. -/
def applyGravityFromMains (sqrt : F → F) (s A B A2 B2 : Body F)
    (p : SimParams F) (dt : F) : Body F :=
  let factor := gravityFactor p s.eject_cooldown
  let s1 := gravOne sqrt p dt s A p.mainSignA factor
  let s2 := gravOne sqrt p dt s1 B p.mainSignB factor
  let s3 := gravOne sqrt p dt s2 A2 p.mainSignA factor
  gravOne sqrt p dt s3 B2 p.mainSignB factor

/-- The function `checkEject(s, M, p)`: the satellite after the call (`M` is `const`). -/
def checkEject (sqrt : F → F) (s M : Body F) (p : SimParams F) : Body F :=
  let dx := s.x - M.x
  let dy := s.y - M.y
  let dist2 := dx * dx + dy * dy
  let minDist := s.radius + M.radius
  if dist2 ≤ minDist * minDist then
    let d := sqrt (max dist2 (1 / 1000000))
    let nx := dx / d
    let ny := dy / d
    let push := (minDist - d) + 1 / 2
    { s with vx := nx * p.ejectSpeed, vy := ny * p.ejectSpeed,
             eject_cooldown := p.ejectCooldownSec,
             x := s.x + nx * push, y := s.y + ny * push }
  else s

/-! ## Initialisation -/

/-- The function `frand(a, b)` for the value `r` returned by `rand()`; `randMax` is
`RAND_MAX`. -/
def frand (randMax r : Nat) (a b : F) : F := a + (b - a) * ((r : F) / (randMax : F))

/-- The satellite built by iteration `i` of the loop of `initSim`; `rand k` is
the value of the `k`-th call of `rand()` since `initSim` was entered (the four
main-body velocities take calls 0 to 3, each satellite the next eight). -/
def initSat (randMax : Nat) (rand : Nat → Nat) (A B : Body F) (p : SimParams F)
    (i : Nat) : Body F :=
  let k := 4 + 8 * i
  let t := frand randMax (rand k) (1 / 4 : F) (3 / 4)
  { (Body.init : Body F) with
    radius := p.satRadius
    mass := p.satMass
    x := A.x * (1 - t) + B.x * t + frand randMax (rand (k + 1)) (-40) 40
    y := A.y + frand randMax (rand (k + 2)) (-80) 80
    vx := frand randMax (rand (k + 3)) (-p.maxInitSpeed) p.maxInitSpeed * (3 / 20)
    vy := frand randMax (rand (k + 4)) (-p.maxInitSpeed) p.maxInitSpeed * (3 / 20)
    color := ⟨(180 + rand (k + 5) % 70) % 256, (180 + rand (k + 6) % 70) % 256,
              (200 + rand (k + 7) % 55) % 256, 255⟩ }

/-- The function `initSim(S, p)`: the state after the call, from the state `S` before it
(fields of the main bodies that `initSim` does not assign keep their value).
`S.sats.resize(p.N)` throws for a negative `N`; that is `none`. -/
def initSim (randMax : Nat) (rand : Nat → Nat) (S : SimState F) (p : SimParams F) :
    Option (SimState F) :=
  if p.N < 0 then none else
  let A : Body F :=
    { S.mainA with
      is_main := true, radius := p.mainRadiusA, mass := p.mainMassA
      x := (p.width : F) * (33 / 100), y := (p.height : F) * (1 / 2)
      vx := frand randMax (rand 0) (-p.mainInitSpeed) p.mainInitSpeed
      vy := frand randMax (rand 1) (-p.mainInitSpeed) p.mainInitSpeed
      color := ⟨0, 255, 0, 255⟩ }
  let B : Body F :=
    { S.mainB with
      is_main := true, radius := p.mainRadiusB, mass := p.mainMassB
      x := (p.width : F) * (66 / 100), y := (p.height : F) * (1 / 2)
      vx := frand randMax (rand 2) (-p.mainInitSpeed) p.mainInitSpeed
      vy := frand randMax (rand 3) (-p.mainInitSpeed) p.mainInitSpeed
      color := ⟨255, 64, 64, 255⟩ }
  let A2 : Body F :=
    { A with y := (p.height : F) * (1 / 4), x := (p.width : F) * (66 / 100)
             color := ⟨0, 255, 0, 255⟩ }
  let B2 : Body F :=
    { B with x := (p.width : F) * (33 / 100), y := (p.height : F) * (3 / 4)
             color := ⟨255, 64, 64, 255⟩ }
  some { mainA := A, mainB := B, mainA2 := A2, mainB2 := B2
         sats := (List.range p.N.toNat).map (initSat randMax rand A B p) }

/-! ## The simulation step -/

/-- The lambda `moveMain` of `step`. -/
def moveMain (p : SimParams F) (dt : F) (M : Body F) : Body F :=
  let M1 : Body F := { M with x := M.x + M.vx * dt, y := M.y + M.vy * dt }
  let M2 := bounceWalls M1 p
  { M2 with vx := M2.vx * p.mainDamping, vy := M2.vy * p.mainDamping }

/-- The first half of `step`: the four `moveMain` calls and the six
`resolveElasticCollision` calls, in source order.  The satellites are not
touched. -/
def stepMains (sqrt : F → F) (S : SimState F) (p : SimParams F) (dt : F) : SimState F :=
  let A := moveMain p dt S.mainA
  let B := moveMain p dt S.mainB
  let A2 := moveMain p dt S.mainA2
  let B2 := moveMain p dt S.mainB2
  let r1 := resolveElasticCollision sqrt A B
  let r2 := resolveElasticCollision sqrt r1.1 A2
  let r3 := resolveElasticCollision sqrt r2.1 B2
  let r4 := resolveElasticCollision sqrt r1.2 r2.2
  let r5 := resolveElasticCollision sqrt r4.1 r3.2
  let r6 := resolveElasticCollision sqrt r4.2 r5.2
  { S with mainA := r3.1, mainB := r5.1, mainA2 := r6.1, mainB2 := r6.2 }

/-- The first statement of the satellite loop body: the cooldown decay. -/
def decayCooldown (dt : F) (s : Body F) : Body F :=
  if s.eject_cooldown > 0 then
    { s with eject_cooldown := max 0 (s.eject_cooldown - dt) } else s

/-- The position update `s.x += s.vx * dt; s.y += s.vy * dt` of the satellite
loop. -/
def advance (dt : F) (s : Body F) : Body F :=
  { s with x := s.x + s.vx * dt, y := s.y + s.vy * dt }

/-- The body of the satellite loop of `step`, for one satellite `s` and the
four main bodies as they stand when the loop runs. -/
def stepSat (sqrt : F → F) (A B A2 B2 : Body F) (p : SimParams F) (dt : F)
    (s : Body F) : Body F :=
  let s1 := decayCooldown dt s
  let s2 := applyGravityFromMains sqrt s1 A B A2 B2 p dt
  let s3 := advance dt s2
  let s4 := bounceWalls s3 p
  let s5 := checkEject sqrt s4 A p
  let s6 := checkEject sqrt s5 B p
  let s7 := checkEject sqrt s6 A2 p
  checkEject sqrt s7 B2 p

/-- One iteration of `for (auto& s : S.sats)`: the element at index `i` is
updated in place; the loop body reads the main bodies from the state. -/
def stepSatAt (sqrt : F → F) (p : SimParams F) (dt : F) (S : SimState F) (i : Nat) :
    SimState F :=
  match S.sats[i]? with
  | none => S
  | some s =>
    { S with sats := S.sats.set i (stepSat sqrt S.mainA S.mainB S.mainA2 S.mainB2 p dt s) }

/-- The satellite loop of `step`: indices `0 .. size-1` in order. -/
def stepSats (sqrt : F → F) (p : SimParams F) (dt : F) (S : SimState F) : SimState F :=
  (List.range S.sats.length).foldl (stepSatAt sqrt p dt) S

/-- The function `step(S, p, dt)`. -/
def step (sqrt : F → F) (S : SimState F) (p : SimParams F) (dt : F) : SimState F :=
  stepSats sqrt p dt (stepMains sqrt S p dt)

/-- The driver's frame loop: `n` calls of `step`, each with the same `dt`. -/
def stepN (sqrt : F → F) (p : SimParams F) (dt : F) : Nat → SimState F → SimState F
  | 0, S => S
  | n + 1, S => stepN sqrt p dt n (step sqrt S p dt)

/-! ## The step with every division checked

The same computations, in source order, with the result `none` as soon as a
division or reciprocal meets the divisor `0`. -/

/-- A checked division: defined only for a non-zero divisor. -/
def divChecked (a b : F) : Option F := if b = 0 then none else some (a / b)

/-- The function `resolveElasticCollision` with its divisions checked. -/
def resolveElasticCollisionChecked (sqrt : F → F) (a b : Body F) : Option (Body F × Body F) :=
  let dx := b.x - a.x
  let dy := b.y - a.y
  let dist2 := dx * dx + dy * dy
  let minDist := a.radius + b.radius
  if dist2 ≤ 1 / 10000 then some (a, b) else
  let dist := sqrt dist2
  if dist ≥ minDist then some (a, b) else
  let overlap := 1 / 2 * (minDist - dist)
  (divChecked dx dist).bind fun nx =>
  (divChecked dy dist).bind fun ny =>
  let a1 : Body F := { a with x := a.x - nx * overlap, y := a.y - ny * overlap }
  let b1 : Body F := { b with x := b.x + nx * overlap, y := b.y + ny * overlap }
  let rvx := b1.vx - a1.vx
  let rvy := b1.vy - a1.vy
  let relVel := rvx * nx + rvy * ny
  if relVel > 0 then some (a1, b1) else
  let m1 := a1.mass
  let m2 := b1.mass
  let e : F := 1
  (divChecked 1 m1).bind fun i1 =>
  (divChecked 1 m2).bind fun i2 =>
  (divChecked (-(1 + e) * relVel) (i1 + i2)).bind fun j =>
  let jx := j * nx
  let jy := j * ny
  (divChecked jx m1).bind fun ax =>
  (divChecked jy m1).bind fun ay =>
  (divChecked jx m2).bind fun bx =>
  (divChecked jy m2).bind fun bY =>
  some ({ a1 with vx := a1.vx - ax, vy := a1.vy - ay },
        { b1 with vx := b1.vx + bx, vy := b1.vy + bY })

/-- The lambda `gravOne` with its reciprocal checked. -/
def gravOneChecked (sqrt : F → F) (p : SimParams F) (dt : F) (s M : Body F)
    (sign factor : F) : Option (Body F) :=
  let dx := M.x - s.x
  let dy := M.y - s.y
  let r2 := dx * dx + dy * dy + p.softening * p.softening
  (divChecked 1 (sqrt r2)).bind fun invr =>
  let invr3 := invr * invr * invr
  let ax := sign * factor * p.G * M.mass * dx * invr3
  let ay := sign * factor * p.G * M.mass * dy * invr3
  some { s with vx := s.vx + ax * dt, vy := s.vy + ay * dt }

/-- The gravity ramp factor with its division checked. -/
def gravityFactorChecked (p : SimParams F) (cooldown : F) : Option F :=
  if cooldown > 0 ∧ p.ejectCooldownSec > 0 then
    (divChecked cooldown p.ejectCooldownSec).bind fun q =>
    let t := 1 - clampf q 0 1
    some (p.postEjectGravityFactor + (1 - p.postEjectGravityFactor) * t)
  else some 1

/-- The function `applyGravityFromMains` with its divisions checked. -/
def applyGravityFromMainsChecked (sqrt : F → F) (s A B A2 B2 : Body F)
    (p : SimParams F) (dt : F) : Option (Body F) :=
  (gravityFactorChecked p s.eject_cooldown).bind fun factor =>
  (gravOneChecked sqrt p dt s A p.mainSignA factor).bind fun s1 =>
  (gravOneChecked sqrt p dt s1 B p.mainSignB factor).bind fun s2 =>
  (gravOneChecked sqrt p dt s2 A2 p.mainSignA factor).bind fun s3 =>
  gravOneChecked sqrt p dt s3 B2 p.mainSignB factor

/-- The function `checkEject` with its divisions checked. -/
def checkEjectChecked (sqrt : F → F) (s M : Body F) (p : SimParams F) : Option (Body F) :=
  let dx := s.x - M.x
  let dy := s.y - M.y
  let dist2 := dx * dx + dy * dy
  let minDist := s.radius + M.radius
  if dist2 ≤ minDist * minDist then
    let d := sqrt (max dist2 (1 / 1000000))
    (divChecked dx d).bind fun nx =>
    (divChecked dy d).bind fun ny =>
    let push := (minDist - d) + 1 / 2
    some { s with vx := nx * p.ejectSpeed, vy := ny * p.ejectSpeed,
                  eject_cooldown := p.ejectCooldownSec,
                  x := s.x + nx * push, y := s.y + ny * push }
  else some s

/-- The first half of `step` with the divisions of the six collision
resolutions checked (`moveMain` and `bounceWalls` do not divide). -/
def stepMainsChecked (sqrt : F → F) (S : SimState F) (p : SimParams F) (dt : F) :
    Option (SimState F) :=
  let A := moveMain p dt S.mainA
  let B := moveMain p dt S.mainB
  let A2 := moveMain p dt S.mainA2
  let B2 := moveMain p dt S.mainB2
  (resolveElasticCollisionChecked sqrt A B).bind fun r1 =>
  (resolveElasticCollisionChecked sqrt r1.1 A2).bind fun r2 =>
  (resolveElasticCollisionChecked sqrt r2.1 B2).bind fun r3 =>
  (resolveElasticCollisionChecked sqrt r1.2 r2.2).bind fun r4 =>
  (resolveElasticCollisionChecked sqrt r4.1 r3.2).bind fun r5 =>
  (resolveElasticCollisionChecked sqrt r4.2 r5.2).bind fun r6 =>
  some { S with mainA := r3.1, mainB := r5.1, mainA2 := r6.1, mainB2 := r6.2 }

/-- The body of the satellite loop with its divisions checked. -/
def stepSatChecked (sqrt : F → F) (A B A2 B2 : Body F) (p : SimParams F) (dt : F)
    (s : Body F) : Option (Body F) :=
  let s1 := decayCooldown dt s
  (applyGravityFromMainsChecked sqrt s1 A B A2 B2 p dt).bind fun s2 =>
  let s3 := advance dt s2
  let s4 := bounceWalls s3 p
  (checkEjectChecked sqrt s4 A p).bind fun s5 =>
  (checkEjectChecked sqrt s5 B p).bind fun s6 =>
  (checkEjectChecked sqrt s6 A2 p).bind fun s7 =>
  checkEjectChecked sqrt s7 B2 p

/-- One iteration of the satellite loop with its divisions checked. -/
def stepSatAtChecked (sqrt : F → F) (p : SimParams F) (dt : F) (S : SimState F) (i : Nat) :
    Option (SimState F) :=
  match S.sats[i]? with
  | none => some S
  | some s =>
    (stepSatChecked sqrt S.mainA S.mainB S.mainA2 S.mainB2 p dt s).bind fun s' =>
    some { S with sats := S.sats.set i s' }

/-- The satellite loop with its divisions checked. -/
def stepSatsChecked (sqrt : F → F) (p : SimParams F) (dt : F) (S : SimState F) :
    Option (SimState F) :=
  (List.range S.sats.length).foldlM (stepSatAtChecked sqrt p dt) S

/-- The function `step` with every division checked. -/
def stepChecked (sqrt : F → F) (S : SimState F) (p : SimParams F) (dt : F) :
    Option (SimState F) :=
  (stepMainsChecked sqrt S p dt).bind (stepSatsChecked sqrt p dt)

/-! ## Command line -/

/-- The function `startsWith(s, pre)`: `s.rfind(pre, 0) == 0`.  A `std::string`
is a list of characters. -/
def startsWith (s pre : List Char) : Bool := pre.isPrefixOf s

/-- The function `toFloat(s, def)`; `stof` is `std::stof`, with `none` for a
thrown exception. -/
def toFloat (stof : List Char → Option F) (s : List Char) (d : F) : F :=
  match stof s with
  | some v => v
  | none => d

/-- The function `toInt(s, def)`; `stoi` is `std::stoi`, with `none` for a
thrown exception. -/
def toInt (stoi : List Char → Option Int) (s : List Char) (d : Int) : Int :=
  match stoi s with
  | some v => v
  | none => d

/-- The body of the loop of `parseArgs` for one argument `a`: the chain of
`if … else if …` in source order.  The warning written to `std::cerr` for an
unrecognised argument is not part of the state. -/
def parseArg (stof : List Char → Option F) (stoi : List Char → Option Int)
    (P : SimParams F) (a : List Char) : SimParams F :=
  if startsWith a "--N=".toList then
    { P with N := max 0 (toInt stoi (a.drop 4) P.N) }
  else if startsWith a "--G=".toList then
    { P with G := max 0 (toFloat stof (a.drop 4) P.G) }
  else if startsWith a "--width=".toList then
    { P with width := max 640 (toInt stoi (a.drop 8) P.width) }
  else if startsWith a "--height=".toList then
    { P with height := max 480 (toInt stoi (a.drop 9) P.height) }
  else if startsWith a "--massA=".toList then
    { P with mainMassA := max 1 (toFloat stof (a.drop 8) P.mainMassA) }
  else if startsWith a "--massB=".toList then
    { P with mainMassB := max 1 (toFloat stof (a.drop 8) P.mainMassB) }
  else if startsWith a "--radiusA=".toList then
    { P with mainRadiusA := max 2 (toFloat stof (a.drop 10) P.mainRadiusA) }
  else if startsWith a "--radiusB=".toList then
    { P with mainRadiusB := max 2 (toFloat stof (a.drop 10) P.mainRadiusB) }
  else if startsWith a "--mainInit=".toList then
    { P with mainInitSpeed := max 0 (toFloat stof (a.drop 11) P.mainInitSpeed) }
  else if startsWith a "--eject=".toList then
    { P with ejectSpeed := max 0 (toFloat stof (a.drop 8) P.ejectSpeed) }
  else if startsWith a "--satRadius=".toList then
    { P with satRadius := max 1 (toFloat stof (a.drop 12) P.satRadius) }
  else if startsWith a "--satMass=".toList then
    { P with satMass := max (1 / 10) (toFloat stof (a.drop 10) P.satMass) }
  else if startsWith a "--signA=".toList then
    { P with mainSignA := clampf (toFloat stof (a.drop 8) P.mainSignA) (-1) 1 }
  else if startsWith a "--signB=".toList then
    { P with mainSignB := clampf (toFloat stof (a.drop 8) P.mainSignB) (-1) 1 }
  else if a = "--benchmark".toList then
    { P with benchmark := true }
  else if startsWith a "--frames=".toList then
    { P with benchmarkFrames := max 1 (toInt stoi (a.drop 9) P.benchmarkFrames) }
  else P

/-- The function `parseArgs(argc, argv, P)`: the arguments `argv[1]`, …,
`argv[argc-1]` are processed in order (`argv[0]` is skipped). -/
def parseArgs (stof : List Char → Option F) (stoi : List Char → Option Int)
    (argv : List (List Char)) (P : SimParams F) : SimParams F :=
  (argv.drop 1).foldl (parseArg stof stoi) P

/-- Both attraction signs lie in `[-1, 1]`. -/
def signsBounded (P : SimParams F) : Prop :=
  (-1 ≤ P.mainSignA ∧ P.mainSignA ≤ 1) ∧ (-1 ≤ P.mainSignB ∧ P.mainSignB ≤ 1)

/-! ## Plain decimal numbers -/

/-- A decimal digit `0` … `9`. -/
def isDigit (c : Char) : Bool := decide (48 ≤ c.toNat ∧ c.toNat ≤ 57)

/-- The value of one decimal digit. -/
def digitVal (c : Char) : Nat := c.toNat - 48

/-- The number written by a run of decimal digits. -/
def natOfDigits (ds : List Char) : Nat := ds.foldl (fun n c => 10 * n + digitVal c) 0

/-- The value `std::stod` and `std::stof` give to a text that starts with a
plain decimal `digits` or `digits.digits` (no sign, no exponent): the integer
part plus the fraction. -/
def decimalValue (cs : List Char) : F :=
  (natOfDigits (cs.takeWhile isDigit) : F) +
    (match cs.dropWhile isDigit with
     | [] => 0
     | c :: fs =>
       if c = '.' then
         (natOfDigits (fs.takeWhile isDigit) : F) / 10 ^ (fs.takeWhile isDigit).length
       else 0)

/-- The whole text is a plain decimal: `digits` or `digits.digits`, with at
least one digit in each part. -/
def isPlainDecimal (cs : List Char) : Bool :=
  !(cs.takeWhile isDigit).isEmpty &&
    (match cs.dropWhile isDigit with
     | [] => true
     | c :: fs => c = '.' && !fs.isEmpty && fs.all isDigit)

/-- The plain-decimal fragment of `std::stof`: an optional sign followed by
`digits` or `digits.digits` and nothing else.  Other texts are outside this
fragment and are answered `none`. -/
def stofPlain (cs : List Char) : Option F :=
  match cs with
  | [] => none
  | c :: r =>
    if c = '-' then (if isPlainDecimal r then some (-(decimalValue r)) else none)
    else if c = '+' then (if isPlainDecimal r then some (decimalValue r) else none)
    else if isPlainDecimal (c :: r) then some (decimalValue (c :: r)) else none

/-- The plain-decimal fragment of `std::stoi`: an optional sign followed by
digits and nothing else, with a value that fits a 32-bit `int`. -/
def stoiPlain (cs : List Char) : Option Int :=
  let fit : Int → Option Int := fun v =>
    if -2147483648 ≤ v ∧ v ≤ 2147483647 then some v else none
  match cs with
  | [] => none
  | c :: r =>
    if c = '-' then
      (if !r.isEmpty && r.all isDigit then fit (-(natOfDigits r : Int)) else none)
    else if c = '+' then
      (if !r.isEmpty && r.all isDigit then fit (natOfDigits r : Int) else none)
    else if (c :: r).all isDigit then fit (natOfDigits (c :: r) : Int) else none

/-! ## The benchmark runner: `parseTime`

The regular expression of `parseTime` is
`Tiempo\s+total:\s*([0-9]+(?:[.,][0-9]+)?)\s*ms`.  It is embedded piece by
piece as a backtracking matcher in continuation style: every piece receives
the text still to read and the matcher `k` of the rest of the expression; a
greedy repetition tries the longest run first and falls back to shorter ones
when `k` fails. -/

/-- The class `\s`: space, tab, line feed, vertical tab, form feed, carriage
return. -/
def isSpace (c : Char) : Bool := decide (c.toNat = 32 ∨ (9 ≤ c.toNat ∧ c.toNat ≤ 13))

/-- A literal piece of the expression. -/
def reLit {α : Type} (lit cs : List Char) (k : List Char → Option α) : Option α :=
  if lit.isPrefixOf cs then k (cs.drop lit.length) else none

/-- The greedy repetition `p*` of a character class; `k` receives the run
that was matched and the text after it. -/
def reStar {α : Type} (p : Char → Bool) :
    List Char → (List Char → List Char → Option α) → Option α
  | [], k => k [] []
  | c :: cs, k =>
    if p c then
      (reStar p cs (fun m r => k (c :: m) r)).orElse (fun _ => k [] (c :: cs))
    else k [] (c :: cs)

/-- The greedy repetition `p+` of a character class. -/
def rePlus {α : Type} (p : Char → Bool) (cs : List Char)
    (k : List Char → List Char → Option α) : Option α :=
  match cs with
  | [] => none
  | c :: r => if p c then reStar p r (fun m r1 => k (c :: m) r1) else none

/-- The end of the expression, `\s*ms`, answering the capture `cap`. -/
def reTail (cap cs : List Char) : Option (List Char) :=
  reStar isSpace cs fun _ r => reLit "ms".toList r fun _ => some cap

/-- The piece `(?:[.,][0-9]+)?\s*ms` after the integer digits `ds` of capture
group 1.  The optional group is tried first with the group, then without
it. -/
def reNumberEnd (ds r5 : List Char) : Option (List Char) :=
  (match r5 with
   | [] => none
   | c :: r6 =>
     if c = '.' ∨ c = ',' then rePlus isDigit r6 fun fs r7 => reTail (ds ++ c :: fs) r7
     else none).orElse fun _ => reTail ds r5

/-- The piece `([0-9]+(?:[.,][0-9]+)?)\s*ms`. -/
def reNumber (r4 : List Char) : Option (List Char) := rePlus isDigit r4 reNumberEnd

/-- The piece `total:\s*([0-9]+(?:[.,][0-9]+)?)\s*ms`. -/
def reTotal (r2 : List Char) : Option (List Char) :=
  reLit "total:".toList r2 fun r3 => reStar isSpace r3 fun _ r4 => reNumber r4

/-- The whole expression matched at the start of `cs`: the text of capture
group 1, if the expression matches there. -/
def timeRegexAt (cs : List Char) : Option (List Char) :=
  reLit "Tiempo".toList cs fun r1 => rePlus isSpace r1 fun _ r2 => reTotal r2

/-- The function `std::regex_search` for this expression: the match at the
leftmost position where the expression matches. -/
def regexSearch : List Char → Option (List Char)
  | [] => timeRegexAt []
  | c :: cs => (timeRegexAt (c :: cs)).orElse fun _ => regexSearch cs

/-- The function `parseTime(text)`; `stod` is `std::stod` on the captured
number after every `,` has been replaced by `.`. -/
def parseTime (stod : List Char → F) (text : List Char) : F :=
  match regexSearch text with
  | some num => stod (num.map fun c => if c = ',' then '.' else c)
  | none => -1

/-! ## The timing line, as the specification words it -/

/-- One or more decimal digits. -/
def IsDigits (ds : List Char) : Prop := ds ≠ [] ∧ ∀ c ∈ ds, isDigit c = true

/-- A run of whitespace, possibly empty. -/
def IsSpaces (ws : List Char) : Prop := ∀ c ∈ ws, isSpace c = true

instance (ds : List Char) : Decidable (IsDigits ds) := by
  unfold IsDigits
  infer_instance

instance (ws : List Char) : Decidable (IsSpaces ws) := by
  unfold IsSpaces
  infer_instance

/-- A number of the timing line: one or more digits, optionally followed by
`.` or `,` and one or more digits. -/
def IsNumber (num : List Char) : Prop :=
  IsDigits num ∨
    ∃ ds sep fs, IsDigits ds ∧ (sep = '.' ∨ sep = ',') ∧ IsDigits fs ∧ num = ds ++ sep :: fs

/-- The text `cs` starts with a timing line whose number is `num`, with the
whitespace the expression allows: `Tiempo`, whitespace, `total:`, optional
whitespace, the number, optional whitespace, `ms`. -/
def TimeLineAt (cs num : List Char) : Prop :=
  ∃ ws1 ws2 ws3 rest, ws1 ≠ [] ∧ IsSpaces ws1 ∧ IsSpaces ws2 ∧ IsSpaces ws3 ∧ IsNumber num ∧
    cs = "Tiempo".toList ++ (ws1 ++ ("total:".toList ++ (ws2 ++ (num ++ (ws3 ++
      ("ms".toList ++ rest))))))

/-- The text contains the timing line exactly as the claim writes it,
`Tiempo total: <number> ms` with single spaces, with the number `num`. -/
def LiteralTimeLine (text num : List Char) : Prop :=
  IsNumber num ∧
    ∃ pre post, text = pre ++ ("Tiempo total: ".toList ++ (num ++ (" ms".toList ++ post)))

/-- The value of a number of the timing line, with `,` read as the decimal
point. -/
def numberValue (num : List Char) : F :=
  (natOfDigits (num.takeWhile isDigit) : F) +
    (match num.dropWhile isDigit with
     | [] => 0
     | _ :: fs => (natOfDigits fs : F) / 10 ^ fs.length)

/-! ## The tests of the source, as predicates -/

/-- None of the four tests of `bounceWalls` fires for `b`. -/
def insideWalls (b : Body F) (p : SimParams F) : Prop :=
  0 ≤ b.x - b.radius ∧ b.x + b.radius ≤ (p.width : F) ∧
  0 ≤ b.y - b.radius ∧ b.y + b.radius ≤ (p.height : F)

/-- The test `dist2 <= minDist*minDist` of `checkEject`. -/
def touches (s M : Body F) : Prop :=
  (s.x - M.x) * (s.x - M.x) + (s.y - M.y) * (s.y - M.y) ≤
    (s.radius + M.radius) * (s.radius + M.radius)

end Defs

/-! ## Concrete inputs used below -/

/-- A body of radius 500 in the middle of the default 960 x 540 world (the
radius `--radiusA=500` gives a main body), moving right and down. -/
def wideBody : Body ℚ :=
  { x := 480, y := 270, vx := 10, vy := 10, radius := 500, mass := 50000,
    color := ⟨0, 255, 0, 255⟩, is_main := true, eject_cooldown := 0 }

/-- A satellite of the default radius that has left the world through the
left wall, moving left. -/
def strayBody : Body ℚ :=
  { x := -3, y := 100, vx := -20, vy := 5, radius := 4, mass := 1,
    color := ⟨200, 200, 220, 255⟩, is_main := false, eject_cooldown := 0 }

/-- The default main body A (radius 14, mass 50000) moving right. -/
def headOnA {F : Type} [LinearOrderedField F] : Body F :=
  { x := 100, y := 100, vx := 10, vy := 0, radius := 14, mass := 50000,
    color := ⟨0, 255, 0, 255⟩, is_main := true, eject_cooldown := 0 }

/-- The default main body B (radius 14, mass 1000000), 20 to the right of
`headOnA` and moving left: the two overlap and approach each other. -/
def headOnB {F : Type} [LinearOrderedField F] : Body F :=
  { x := 120, y := 100, vx := -5, vy := 0, radius := 14, mass := 1000000,
    color := ⟨255, 64, 64, 255⟩, is_main := true, eject_cooldown := 0 }

/-- A default satellite drifting to the right in free space. -/
def driftSat {F : Type} [LinearOrderedField F] : Body F :=
  { x := 100, y := 100, vx := 5, vy := 0, radius := 4, mass := 1,
    color := ⟨200, 200, 220, 255⟩, is_main := false, eject_cooldown := 0 }

/-- A default satellite 10 to the right of where `initSim` puts `mainB2`,
moving down so that after `dt = 0.016` it is level with that centre. -/
def grazingSat {F : Type} [LinearOrderedField F] : Body F :=
  { x := 1584 / 5 + 10, y := 405 - 1 / 10, vx := 0, vy := 25 / 4, radius := 4, mass := 1,
    color := ⟨200, 200, 220, 255⟩, is_main := false, eject_cooldown := 0 }

/-- A small state in the default world: the four main bodies at rest where
`initSim` puts them (`--mainInit=0`), one satellite drifting in free space and
one satellite about to touch `mainB2`. -/
def demoState {F : Type} [LinearOrderedField F] : SimState F :=
  { mainA := { x := 1584 / 5, y := 270, vx := 0, vy := 0, radius := 14, mass := 50000,
               color := ⟨0, 255, 0, 255⟩, is_main := true, eject_cooldown := 0 }
    mainB := { x := 3168 / 5, y := 270, vx := 0, vy := 0, radius := 14, mass := 1000000,
               color := ⟨255, 64, 64, 255⟩, is_main := true, eject_cooldown := 0 }
    mainA2 := { x := 3168 / 5, y := 135, vx := 0, vy := 0, radius := 14, mass := 50000,
                color := ⟨0, 255, 0, 255⟩, is_main := true, eject_cooldown := 0 }
    mainB2 := { x := 1584 / 5, y := 405, vx := 0, vy := 0, radius := 14, mass := 1000000,
                color := ⟨255, 64, 64, 255⟩, is_main := true, eject_cooldown := 0 }
    sats := [driftSat, grazingSat] }

/-- The default parameters with gravity switched off (`--G=0`). -/
def zeroGParams {F : Type} [LinearOrderedField F] : SimParams F :=
  { (SimParams.init : SimParams F) with G := 0 }

/-- A default satellite whose centre coincides with the centre of `mainA` of
the demo state. -/
def coincidentSat {F : Type} [LinearOrderedField F] : Body F :=
  { x := 1584 / 5, y := 270, vx := 3, vy := 4, radius := 4, mass := 1,
    color := ⟨200, 200, 220, 255⟩, is_main := false, eject_cooldown := 0 }

/-- A default satellite overlapping `mainA` of the demo state, 10 away from
its centre (6 to the right, 8 below) and moving towards it. -/
def touchingSat {F : Type} [LinearOrderedField F] : Body F :=
  { x := 1584 / 5 + 6, y := 270 + 8, vx := -3, vy := -4, radius := 4, mass := 1,
    color := ⟨200, 200, 220, 255⟩, is_main := false, eject_cooldown := 1 / 5 }

/-- A command line that asks for a green sign of one half. -/
def halfSignArgv : List (List Char) := ["screensaver".toList, "--signA=0.5".toList]

/-- A timing line without the spaces around the number. -/
def tightLine : List Char := "Tiempo total:5ms".toList

/-- A benchmark output line for 500 frames, written with a decimal comma. -/
def benchLine : List Char :=
  "[Benchmark] Frames: 500  Tiempo total: 1234,5 ms  Avg por frame: 2.469 ms".toList

section Lemmas

variable {F : Type} [LinearOrderedField F]

/-! ## Wall confinement -/

theorem bounceWalls_radius (b : Body F) (p : SimParams F) :
    (bounceWalls b p).radius = b.radius := by
  simp only [bounceWalls]
  split_ifs <;> rfl

theorem bounceWalls_mass (b : Body F) (p : SimParams F) :
    (bounceWalls b p).mass = b.mass := by
  simp only [bounceWalls]
  split_ifs <;> rfl

theorem bounceWalls_eject_cooldown (b : Body F) (p : SimParams F) :
    (bounceWalls b p).eject_cooldown = b.eject_cooldown := by
  simp only [bounceWalls]
  split_ifs <;> rfl

/-- The horizontal velocity after `bounceWalls` is decided by the two
horizontal tests alone. -/
theorem bounceWalls_vx (b : Body F) (p : SimParams F) :
    (bounceWalls b p).vx =
      (if (if b.x - b.radius < 0 then b.radius else b.x) + b.radius > (p.width : F)
        then -(if b.x - b.radius < 0 then -b.vx * p.wallRestitution else b.vx) *
          p.wallRestitution
        else (if b.x - b.radius < 0 then -b.vx * p.wallRestitution else b.vx)) := by
  simp only [bounceWalls]
  split_ifs <;> rfl

/-- The vertical velocity after `bounceWalls` is decided by the two vertical
tests alone. -/
theorem bounceWalls_vy (b : Body F) (p : SimParams F) :
    (bounceWalls b p).vy =
      (if (if b.y - b.radius < 0 then b.radius else b.y) + b.radius > (p.height : F)
        then -(if b.y - b.radius < 0 then -b.vy * p.wallRestitution else b.vy) *
          p.wallRestitution
        else (if b.y - b.radius < 0 then -b.vy * p.wallRestitution else b.vy)) := by
  simp only [bounceWalls]
  split_ifs <;> rfl

/-- A body that lies inside the four walls is returned as it is. -/
theorem bounceWalls_inside (b : Body F) (p : SimParams F)
    (hx0 : 0 ≤ b.x - b.radius) (hx1 : b.x + b.radius ≤ (p.width : F))
    (hy0 : 0 ≤ b.y - b.radius) (hy1 : b.y + b.radius ≤ (p.height : F)) :
    bounceWalls b p = b := by
  simp only [bounceWalls, gt_iff_lt, if_neg (not_lt.mpr hx0), if_neg (not_lt.mpr hx1),
    if_neg (not_lt.mpr hy0), if_neg (not_lt.mpr hy1)]

/-! ## The gravity ramp -/

theorem clampf_mem (x : F) : 0 ≤ clampf x 0 1 ∧ clampf x 0 1 ≤ 1 := by
  unfold clampf
  exact ⟨le_max_left _ _, max_le zero_le_one (min_le_left _ _)⟩

theorem clampf_mono {x y : F} (h : x ≤ y) : clampf x 0 1 ≤ clampf y 0 1 := by
  unfold clampf
  exact max_le_max le_rfl (min_le_min le_rfl h)

/-- With a post-ejection factor in `[0,1]` the ramp never exceeds full gravity. -/
theorem gravityFactor_le_one (p : SimParams F) (c : F)
    (h1 : p.postEjectGravityFactor ≤ 1) : gravityFactor p c ≤ 1 := by
  unfold gravityFactor
  split_ifs with h
  · have hc := clampf_mem (c / p.ejectCooldownSec)
    nlinarith [hc.1, hc.2]
  · exact le_rfl

/-! ## Elastic collision -/

/-- Equal and opposite impulses leave the momentum sum unchanged. -/
theorem impulse_momentum {m1 m2 : F} (h1 : m1 ≠ 0) (h2 : m2 ≠ 0) (v1 v2 J : F) :
    m1 * (v1 - J / m1) + m2 * (v2 + J / m2) = m1 * v1 + m2 * v2 := by
  field_simp
  ring

/-- The two early exits of `resolveElasticCollision`: centres closer than
`0.01` or not overlapping. -/
theorem resolveElasticCollision_skip (sqrt : F → F) (a b : Body F)
    (h : (b.x - a.x) * (b.x - a.x) + (b.y - a.y) * (b.y - a.y) ≤ 1 / 10000 ∨
      sqrt ((b.x - a.x) * (b.x - a.x) + (b.y - a.y) * (b.y - a.y)) ≥ a.radius + b.radius) :
    resolveElasticCollision sqrt a b = (a, b) := by
  simp only [resolveElasticCollision]
  split_ifs with h1 h2
  · rfl
  · rfl
  · exact absurd h (not_or.mpr ⟨h1, h2⟩)
  · exact absurd h (not_or.mpr ⟨h1, h2⟩)

/-- The positional correction of `resolveElasticCollision` for two overlapping
bodies; radius and mass are kept. -/
theorem resolveElasticCollision_positions (sqrt : F → F) (a b : Body F)
    (h1 : ¬ (b.x - a.x) * (b.x - a.x) + (b.y - a.y) * (b.y - a.y) ≤ 1 / 10000)
    (h2 : ¬ sqrt ((b.x - a.x) * (b.x - a.x) + (b.y - a.y) * (b.y - a.y)) ≥
      a.radius + b.radius) :
    (resolveElasticCollision sqrt a b).1.x =
      a.x - (b.x - a.x) / sqrt ((b.x - a.x) * (b.x - a.x) + (b.y - a.y) * (b.y - a.y)) *
        (1 / 2 * (a.radius + b.radius -
          sqrt ((b.x - a.x) * (b.x - a.x) + (b.y - a.y) * (b.y - a.y)))) ∧
    (resolveElasticCollision sqrt a b).1.y =
      a.y - (b.y - a.y) / sqrt ((b.x - a.x) * (b.x - a.x) + (b.y - a.y) * (b.y - a.y)) *
        (1 / 2 * (a.radius + b.radius -
          sqrt ((b.x - a.x) * (b.x - a.x) + (b.y - a.y) * (b.y - a.y)))) ∧
    (resolveElasticCollision sqrt a b).2.x =
      b.x + (b.x - a.x) / sqrt ((b.x - a.x) * (b.x - a.x) + (b.y - a.y) * (b.y - a.y)) *
        (1 / 2 * (a.radius + b.radius -
          sqrt ((b.x - a.x) * (b.x - a.x) + (b.y - a.y) * (b.y - a.y)))) ∧
    (resolveElasticCollision sqrt a b).2.y =
      b.y + (b.y - a.y) / sqrt ((b.x - a.x) * (b.x - a.x) + (b.y - a.y) * (b.y - a.y)) *
        (1 / 2 * (a.radius + b.radius -
          sqrt ((b.x - a.x) * (b.x - a.x) + (b.y - a.y) * (b.y - a.y)))) ∧
    (resolveElasticCollision sqrt a b).1.radius = a.radius ∧
    (resolveElasticCollision sqrt a b).2.radius = b.radius ∧
    (resolveElasticCollision sqrt a b).1.mass = a.mass ∧
    (resolveElasticCollision sqrt a b).2.mass = b.mass := by
  simp only [resolveElasticCollision, if_neg h1, if_neg h2]
  split_ifs <;> exact ⟨rfl, rfl, rfl, rfl, rfl, rfl, rfl, rfl⟩

/-- The velocities of two overlapping bodies that are not separating: the
impulse branch of `resolveElasticCollision`. -/
theorem resolveElasticCollision_impulse (sqrt : F → F) (a b : Body F)
    (h1 : ¬ (b.x - a.x) * (b.x - a.x) + (b.y - a.y) * (b.y - a.y) ≤ 1 / 10000)
    (h2 : ¬ sqrt ((b.x - a.x) * (b.x - a.x) + (b.y - a.y) * (b.y - a.y)) ≥
      a.radius + b.radius)
    (h3 : ¬ (b.vx - a.vx) *
          ((b.x - a.x) / sqrt ((b.x - a.x) * (b.x - a.x) + (b.y - a.y) * (b.y - a.y))) +
        (b.vy - a.vy) *
          ((b.y - a.y) / sqrt ((b.x - a.x) * (b.x - a.x) + (b.y - a.y) * (b.y - a.y))) > 0) :
    ∀ d nx ny relVel j : F,
      d = sqrt ((b.x - a.x) * (b.x - a.x) + (b.y - a.y) * (b.y - a.y)) →
      nx = (b.x - a.x) / d → ny = (b.y - a.y) / d →
      relVel = (b.vx - a.vx) * nx + (b.vy - a.vy) * ny →
      j = -(1 + 1) * relVel / (1 / a.mass + 1 / b.mass) →
      (resolveElasticCollision sqrt a b).1.vx = a.vx - j * nx / a.mass ∧
      (resolveElasticCollision sqrt a b).1.vy = a.vy - j * ny / a.mass ∧
      (resolveElasticCollision sqrt a b).2.vx = b.vx + j * nx / b.mass ∧
      (resolveElasticCollision sqrt a b).2.vy = b.vy + j * ny / b.mass := by
  intro d nx ny relVel j hd hnx hny hrel hj
  subst hd
  subst hnx
  subst hny
  subst hrel
  subst hj
  simp only [resolveElasticCollision, if_neg h1, if_neg h2, if_neg h3]
  refine ⟨?_, ?_, ?_, ?_⟩ <;> first | rfl | trivial

/-- The velocities of two overlapping bodies that are separating are kept. -/
theorem resolveElasticCollision_separating (sqrt : F → F) (a b : Body F)
    (h1 : ¬ (b.x - a.x) * (b.x - a.x) + (b.y - a.y) * (b.y - a.y) ≤ 1 / 10000)
    (h2 : ¬ sqrt ((b.x - a.x) * (b.x - a.x) + (b.y - a.y) * (b.y - a.y)) ≥
      a.radius + b.radius)
    (h3 : (b.vx - a.vx) *
          ((b.x - a.x) / sqrt ((b.x - a.x) * (b.x - a.x) + (b.y - a.y) * (b.y - a.y))) +
        (b.vy - a.vy) *
          ((b.y - a.y) / sqrt ((b.x - a.x) * (b.x - a.x) + (b.y - a.y) * (b.y - a.y))) > 0) :
    (resolveElasticCollision sqrt a b).1.vx = a.vx ∧
    (resolveElasticCollision sqrt a b).1.vy = a.vy ∧
    (resolveElasticCollision sqrt a b).2.vx = b.vx ∧
    (resolveElasticCollision sqrt a b).2.vy = b.vy := by
  simp only [resolveElasticCollision, if_neg h1, if_neg h2, if_pos h3]
  refine ⟨?_, ?_, ?_, ?_⟩ <;> first | rfl | trivial

/-! ## The satellite loop -/

/-- Reading a list at the indices `0 .. length-1` gives the list back. -/
theorem filterMap_getElem?_range {α : Type} (l : List α) :
    (List.range l.length).filterMap (fun i => l[i]?) = l := by
  induction l using List.reverseRecOn with
  | nil => simp
  | append_singleton l a ih =>
    have h1 : List.filterMap (fun i => (l ++ [a])[i]?) (List.range l.length) = l := by
      conv_rhs => rw [← ih]
      apply List.filterMap_congr
      intro i hi
      rw [List.mem_range] at hi
      exact List.getElem?_append_left hi
    rw [List.length_append, List.length_singleton, List.range_succ, List.filterMap_append, h1]
    simp

/-- One loop iteration at the boundary between the satellites already
processed and those still to do. -/
theorem stepSatAt_boundary (sqrt : F → F) (p : SimParams F) (dt : F) (S : SimState F)
    (done todo : List (Body F)) (t : Body F) (h : S.sats = done ++ t :: todo) :
    stepSatAt sqrt p dt S done.length =
      { S with sats :=
          done ++ stepSat sqrt S.mainA S.mainB S.mainA2 S.mainB2 p dt t :: todo } := by
  have hget : S.sats[done.length]? = some t := by
    rw [h, List.getElem?_append_right (le_refl _)]
    simp
  simp only [stepSatAt, hget]
  rw [h, List.set_append_right _ _ (le_refl _)]
  simp

/-- Loop invariant of the satellite loop: after the iterations for the
indices of `todo`, the processed prefix is untouched, every satellite of
`todo` has been replaced by its `stepSat` image, and the main bodies are the
ones the loop started with. -/
theorem stepSats_range' (sqrt : F → F) (p : SimParams F) (dt : F) (todo : List (Body F)) :
    ∀ (done : List (Body F)) (S : SimState F), S.sats = done ++ todo →
      (List.range' done.length todo.length).foldl (stepSatAt sqrt p dt) S =
        { S with sats :=
            done ++ todo.map (stepSat sqrt S.mainA S.mainB S.mainA2 S.mainB2 p dt) } := by
  induction todo with
  | nil =>
    intro done S h
    cases S
    simp_all
  | cons t ts ih =>
    intro done S h
    rw [List.length_cons, List.range'_succ, List.foldl_cons,
      stepSatAt_boundary sqrt p dt S done ts t h]
    have h1 : (done ++ [stepSat sqrt S.mainA S.mainB S.mainA2 S.mainB2 p dt t]).length
        = done.length + 1 := by simp
    have := ih (done ++ [stepSat sqrt S.mainA S.mainB S.mainA2 S.mainB2 p dt t])
      { S with sats :=
          done ++ stepSat sqrt S.mainA S.mainB S.mainA2 S.mainB2 p dt t :: ts } (by simp)
    rw [h1] at this
    rw [this]
    simp

/-- The satellite loop is a pointwise map that reads the main bodies and
does not change them. -/
theorem stepSats_eq_map (sqrt : F → F) (p : SimParams F) (dt : F) (S : SimState F) :
    stepSats sqrt p dt S =
      { S with sats := S.sats.map (stepSat sqrt S.mainA S.mainB S.mainA2 S.mainB2 p dt) } := by
  have := stepSats_range' sqrt p dt S.sats [] S (by simp)
  simpa [stepSats, List.range_eq_range'] using this

theorem stepMains_sats (sqrt : F → F) (S : SimState F) (p : SimParams F) (dt : F) :
    (stepMains sqrt S p dt).sats = S.sats := rfl

/-- The satellites after `step`: each one is the `stepSat` image of the
satellite at the same index, computed against the main bodies left by the
first half of the step. -/
theorem step_sats (sqrt : F → F) (S : SimState F) (p : SimParams F) (dt : F) :
    (step sqrt S p dt).sats =
      S.sats.map (stepSat sqrt (stepMains sqrt S p dt).mainA (stepMains sqrt S p dt).mainB
        (stepMains sqrt S p dt).mainA2 (stepMains sqrt S p dt).mainB2 p dt) := by
  rw [step, stepSats_eq_map, stepMains_sats]

/-! ## Cooldown -/

theorem gravOne_eject_cooldown (sqrt : F → F) (p : SimParams F) (dt : F) (s M : Body F)
    (sign factor : F) :
    (gravOne sqrt p dt s M sign factor).eject_cooldown = s.eject_cooldown := rfl

theorem applyGravityFromMains_eject_cooldown (sqrt : F → F) (s A B A2 B2 : Body F)
    (p : SimParams F) (dt : F) :
    (applyGravityFromMains sqrt s A B A2 B2 p dt).eject_cooldown = s.eject_cooldown := rfl

theorem decayCooldown_x (dt : F) (s : Body F) : (decayCooldown dt s).x = s.x := by
  unfold decayCooldown
  split_ifs <;> rfl

theorem decayCooldown_y (dt : F) (s : Body F) : (decayCooldown dt s).y = s.y := by
  unfold decayCooldown
  split_ifs <;> rfl

theorem decayCooldown_vx (dt : F) (s : Body F) : (decayCooldown dt s).vx = s.vx := by
  unfold decayCooldown
  split_ifs <;> rfl

theorem decayCooldown_vy (dt : F) (s : Body F) : (decayCooldown dt s).vy = s.vy := by
  unfold decayCooldown
  split_ifs <;> rfl

theorem decayCooldown_radius (dt : F) (s : Body F) : (decayCooldown dt s).radius = s.radius := by
  unfold decayCooldown
  split_ifs <;> rfl

theorem decayCooldown_nonneg (dt : F) (s : Body F) (h : 0 ≤ s.eject_cooldown) :
    0 ≤ (decayCooldown dt s).eject_cooldown := by
  unfold decayCooldown
  split_ifs
  · exact le_max_left _ _
  · exact h

theorem checkEject_cooldown_nonneg (sqrt : F → F) (s M : Body F) (p : SimParams F)
    (hE : 0 ≤ p.ejectCooldownSec) (h : 0 ≤ s.eject_cooldown) :
    0 ≤ (checkEject sqrt s M p).eject_cooldown := by
  simp only [checkEject]
  split_ifs
  · exact hE
  · exact h

theorem stepSat_cooldown_nonneg (sqrt : F → F) (A B A2 B2 : Body F) (p : SimParams F)
    (dt : F) (s : Body F) (hE : 0 ≤ p.ejectCooldownSec) (h : 0 ≤ s.eject_cooldown) :
    0 ≤ (stepSat sqrt A B A2 B2 p dt s).eject_cooldown := by
  simp only [stepSat]
  refine checkEject_cooldown_nonneg sqrt _ _ p hE ?_
  refine checkEject_cooldown_nonneg sqrt _ _ p hE ?_
  refine checkEject_cooldown_nonneg sqrt _ _ p hE ?_
  refine checkEject_cooldown_nonneg sqrt _ _ p hE ?_
  rw [bounceWalls_eject_cooldown]
  exact decayCooldown_nonneg dt s h

theorem step_cooldown_nonneg (sqrt : F → F) (S : SimState F) (p : SimParams F) (dt : F)
    (hE : 0 ≤ p.ejectCooldownSec) (h : ∀ s ∈ S.sats, 0 ≤ s.eject_cooldown) :
    ∀ s ∈ (step sqrt S p dt).sats, 0 ≤ s.eject_cooldown := by
  intro s hs
  rw [step_sats, List.mem_map] at hs
  obtain ⟨s0, hs0, rfl⟩ := hs
  exact stepSat_cooldown_nonneg sqrt _ _ _ _ p dt s0 hE (h s0 hs0)

theorem stepN_cooldown_nonneg (sqrt : F → F) (p : SimParams F) (dt : F)
    (hE : 0 ≤ p.ejectCooldownSec) (n : Nat) :
    ∀ S : SimState F, (∀ s ∈ S.sats, 0 ≤ s.eject_cooldown) →
      ∀ s ∈ (stepN sqrt p dt n S).sats, 0 ≤ s.eject_cooldown := by
  induction n with
  | zero => intro S h; exact h
  | succ n ih =>
    intro S h
    exact ih (step sqrt S p dt) (step_cooldown_nonneg sqrt S p dt hE h)

/-! ## Gravity -/

theorem gravOne_x (sqrt : F → F) (p : SimParams F) (dt : F) (s M : Body F) (sign factor : F) :
    (gravOne sqrt p dt s M sign factor).x = s.x := rfl

theorem gravOne_y (sqrt : F → F) (p : SimParams F) (dt : F) (s M : Body F) (sign factor : F) :
    (gravOne sqrt p dt s M sign factor).y = s.y := rfl

/-- With `G = 0` a main body adds nothing to the velocity. -/
theorem gravOne_G_zero (sqrt : F → F) (p : SimParams F) (dt : F) (s M : Body F)
    (sign factor : F) (hG : p.G = 0) : gravOne sqrt p dt s M sign factor = s := by
  cases s
  simp [gravOne, hG]

theorem applyGravityFromMains_G_zero (sqrt : F → F) (s A B A2 B2 : Body F)
    (p : SimParams F) (dt : F) (hG : p.G = 0) :
    applyGravityFromMains sqrt s A B A2 B2 p dt = s := by
  simp only [applyGravityFromMains, gravOne_G_zero sqrt p dt _ _ _ _ hG]

/-! ## Ejection -/

/-- The triggered branch of `checkEject`. -/
theorem checkEject_hit (sqrt : F → F) (s M : Body F) (p : SimParams F)
    (h : (s.x - M.x) * (s.x - M.x) + (s.y - M.y) * (s.y - M.y) ≤
      (s.radius + M.radius) * (s.radius + M.radius)) :
    checkEject sqrt s M p =
      { s with
        vx := (s.x - M.x) /
          sqrt (max ((s.x - M.x) * (s.x - M.x) + (s.y - M.y) * (s.y - M.y)) (1 / 1000000)) *
            p.ejectSpeed
        vy := (s.y - M.y) /
          sqrt (max ((s.x - M.x) * (s.x - M.x) + (s.y - M.y) * (s.y - M.y)) (1 / 1000000)) *
            p.ejectSpeed
        eject_cooldown := p.ejectCooldownSec
        x := s.x + (s.x - M.x) /
          sqrt (max ((s.x - M.x) * (s.x - M.x) + (s.y - M.y) * (s.y - M.y)) (1 / 1000000)) *
            ((s.radius + M.radius -
              sqrt (max ((s.x - M.x) * (s.x - M.x) + (s.y - M.y) * (s.y - M.y))
                (1 / 1000000))) + 1 / 2)
        y := s.y + (s.y - M.y) /
          sqrt (max ((s.x - M.x) * (s.x - M.x) + (s.y - M.y) * (s.y - M.y)) (1 / 1000000)) *
            ((s.radius + M.radius -
              sqrt (max ((s.x - M.x) * (s.x - M.x) + (s.y - M.y) * (s.y - M.y))
                (1 / 1000000))) + 1 / 2) } := by
  simp only [checkEject, if_pos h]

/-- The untriggered branch of `checkEject`. -/
theorem checkEject_miss (sqrt : F → F) (s M : Body F) (p : SimParams F)
    (h : (s.radius + M.radius) * (s.radius + M.radius) <
      (s.x - M.x) * (s.x - M.x) + (s.y - M.y) * (s.y - M.y)) :
    checkEject sqrt s M p = s := by
  simp only [checkEject, if_neg (not_le.mpr h)]

theorem checkEject_radius (sqrt : F → F) (s M : Body F) (p : SimParams F) :
    (checkEject sqrt s M p).radius = s.radius := by
  simp only [checkEject]
  split_ifs <;> rfl

theorem checkEject_mass (sqrt : F → F) (s M : Body F) (p : SimParams F) :
    (checkEject sqrt s M p).mass = s.mass := by
  simp only [checkEject]
  split_ifs <;> rfl

/-! ## Free flight -/

theorem insideWalls_congr {a b : Body F} (p : SimParams F) (hx : a.x = b.x) (hy : a.y = b.y)
    (hr : a.radius = b.radius) : insideWalls a p ↔ insideWalls b p := by
  simp only [insideWalls, hx, hy, hr]

theorem touches_congr {a b : Body F} (M : Body F) (hx : a.x = b.x) (hy : a.y = b.y)
    (hr : a.radius = b.radius) : touches a M ↔ touches b M := by
  simp only [touches, hx, hy, hr]

/-- With `G = 0`, a satellite whose moved position is inside the walls and out
of contact with the four main bodies only has its cooldown decayed and its
position advanced. -/
theorem stepSat_free (sqrt : F → F) (A B A2 B2 : Body F) (p : SimParams F) (dt : F)
    (s : Body F) (hG : p.G = 0) (hw : insideWalls (advance dt s) p)
    (hA : ¬ touches (advance dt s) A) (hB : ¬ touches (advance dt s) B)
    (hA2 : ¬ touches (advance dt s) A2) (hB2 : ¬ touches (advance dt s) B2) :
    stepSat sqrt A B A2 B2 p dt s = advance dt (decayCooldown dt s) := by
  have ex : (advance dt (decayCooldown dt s)).x = (advance dt s).x := by
    simp only [advance, decayCooldown_x, decayCooldown_vx]
  have ey : (advance dt (decayCooldown dt s)).y = (advance dt s).y := by
    simp only [advance, decayCooldown_y, decayCooldown_vy]
  have er : (advance dt (decayCooldown dt s)).radius = (advance dt s).radius := by
    simp only [advance, decayCooldown_radius]
  have hw1 := (insideWalls_congr p ex ey er).mpr hw
  have miss : ∀ M : Body F, ¬ touches (advance dt s) M →
      checkEject sqrt (advance dt (decayCooldown dt s)) M p = advance dt (decayCooldown dt s) := by
    intro M hM
    apply checkEject_miss
    exact not_le.mp (fun h => hM ((touches_congr M ex ey er).mp h))
  simp only [stepSat, applyGravityFromMains_G_zero sqrt _ A B A2 B2 p dt hG]
  rw [bounceWalls_inside _ p hw1.1 hw1.2.1 hw1.2.2.1 hw1.2.2.2, miss A hA, miss B hB,
    miss A2 hA2, miss B2 hB2]

/-- A main body at rest inside the walls is not changed by `moveMain`. -/
theorem moveMain_rest (p : SimParams F) (dt : F) (M : Body F) (hvx : M.vx = 0)
    (hvy : M.vy = 0) (hw : insideWalls M p) : moveMain p dt M = M := by
  have h1 : ({ M with x := M.x + M.vx * dt, y := M.y + M.vy * dt } : Body F) = M := by
    cases M
    simp_all
  simp only [moveMain, h1, bounceWalls_inside M p hw.1 hw.2.1 hw.2.2.1 hw.2.2.2]
  cases M
  simp_all

/-! ## Command line -/

theorem clampf_between (x a b : F) (hab : a ≤ b) : a ≤ clampf x a b ∧ clampf x a b ≤ b := by
  unfold clampf
  exact ⟨le_max_left _ _, max_le hab (min_le_left _ _)⟩

/-- A property of both branches is a property of the conditional. -/
theorem ite_pres {α : Type} (Q : α → Prop) (c : Prop) [Decidable c] (x y : α)
    (hx : Q x) (hy : Q y) : Q (if c then x else y) := by
  split_ifs
  · exact hx
  · exact hy

/-- One argument keeps both signs in `[-1, 1]`. -/
theorem parseArg_signs (stof : List Char → Option F) (stoi : List Char → Option Int)
    (P : SimParams F) (a : List Char) (h : signsBounded P) :
    signsBounded (parseArg stof stoi P a) := by
  have hc : ∀ x : F, -1 ≤ clampf x (-1) 1 ∧ clampf x (-1) 1 ≤ 1 :=
    fun x => clampf_between x (-1) 1 (by norm_num)
  unfold parseArg
  repeat' apply ite_pres signsBounded
  all_goals first
    | exact h
    | exact ⟨hc _, h.2⟩
    | exact ⟨h.1, hc _⟩

/-- Any run of arguments keeps both signs in `[-1, 1]`. -/
theorem foldl_parseArg_signs (stof : List Char → Option F) (stoi : List Char → Option Int)
    (args : List (List Char)) :
    ∀ P : SimParams F, signsBounded P → signsBounded (args.foldl (parseArg stof stoi) P) := by
  induction args with
  | nil => intro P h; exact h
  | cons a as ih =>
    intro P h
    exact ih _ (parseArg_signs stof stoi P a h)

/-! ## Checked divisions -/

theorem divChecked_ne (a : F) {b : F} (h : b ≠ 0) : divChecked a b = some (a / b) := by
  simp only [divChecked, if_neg h]

/-- A monadic fold whose step never fails is the plain fold. -/
theorem foldlM_some {σ α : Type} (f : σ → α → Option σ) (g : σ → α → σ)
    (h : ∀ s a, f s a = some (g s a)) (l : List α) :
    ∀ s : σ, l.foldlM f s = some (l.foldl g s) := by
  induction l with
  | nil => intro s; rfl
  | cons a as ih =>
    intro s
    simp only [List.foldlM, List.foldl, h]
    exact ih (g s a)

theorem moveMain_mass (p : SimParams F) (dt : F) (M : Body F) :
    (moveMain p dt M).mass = M.mass := by
  simp only [moveMain]
  exact bounceWalls_mass _ p

theorem resolveElasticCollision_mass (sqrt : F → F) (a b : Body F) :
    (resolveElasticCollision sqrt a b).1.mass = a.mass ∧
    (resolveElasticCollision sqrt a b).2.mass = b.mass := by
  simp only [resolveElasticCollision]
  split_ifs <;> exact ⟨rfl, rfl⟩

/-- With positive masses and a square root that is non-zero above `0.0001`,
no division of `resolveElasticCollision` meets a zero divisor. -/
theorem resolveElasticCollisionChecked_eq (sqrt : F → F) (a b : Body F)
    (hsqrt : ∀ x : F, ¬ x ≤ 1 / 10000 → sqrt x ≠ 0)
    (ha : 0 < a.mass) (hb : 0 < b.mass) :
    resolveElasticCollisionChecked sqrt a b = some (resolveElasticCollision sqrt a b) := by
  have hma : a.mass ≠ 0 := ne_of_gt ha
  have hmb : b.mass ≠ 0 := ne_of_gt hb
  have hmu : 1 / a.mass + 1 / b.mass ≠ 0 :=
    ne_of_gt (add_pos (one_div_pos.mpr ha) (one_div_pos.mpr hb))
  by_cases h1 : (b.x - a.x) * (b.x - a.x) + (b.y - a.y) * (b.y - a.y) ≤ 1 / 10000
  · simp only [resolveElasticCollisionChecked, resolveElasticCollision, if_pos h1]
  by_cases h2 : sqrt ((b.x - a.x) * (b.x - a.x) + (b.y - a.y) * (b.y - a.y)) ≥
      a.radius + b.radius
  · simp only [resolveElasticCollisionChecked, resolveElasticCollision, if_neg h1, if_pos h2]
  by_cases h3 : (b.vx - a.vx) *
        ((b.x - a.x) / sqrt ((b.x - a.x) * (b.x - a.x) + (b.y - a.y) * (b.y - a.y))) +
      (b.vy - a.vy) *
        ((b.y - a.y) / sqrt ((b.x - a.x) * (b.x - a.x) + (b.y - a.y) * (b.y - a.y))) > 0
  · simp only [resolveElasticCollisionChecked, resolveElasticCollision, if_neg h1, if_neg h2,
      divChecked_ne _ (hsqrt _ h1), Option.some_bind, if_pos h3]
  · simp only [resolveElasticCollisionChecked, resolveElasticCollision, if_neg h1, if_neg h2,
      divChecked_ne _ (hsqrt _ h1), Option.some_bind, if_neg h3,
      divChecked_ne _ hma, divChecked_ne _ hmb, divChecked_ne _ hmu]

/-- With a non-zero square root of the softened distance, the reciprocal of
`gravOne` is defined. -/
theorem gravOneChecked_eq (sqrt : F → F) (p : SimParams F) (dt : F) (s M : Body F)
    (sign factor : F)
    (h : sqrt ((M.x - s.x) * (M.x - s.x) + (M.y - s.y) * (M.y - s.y) +
      p.softening * p.softening) ≠ 0) :
    gravOneChecked sqrt p dt s M sign factor = some (gravOne sqrt p dt s M sign factor) := by
  simp only [gravOneChecked, gravOne, divChecked_ne _ h, Option.some_bind]

/-- The ramp divides by `ejectCooldownSec` only when it is positive. -/
theorem gravityFactorChecked_eq (p : SimParams F) (c : F) :
    gravityFactorChecked p c = some (gravityFactor p c) := by
  simp only [gravityFactorChecked, gravityFactor]
  split_ifs with h
  · simp only [divChecked_ne _ (ne_of_gt h.2), Option.some_bind]
  · rfl

/-- With a non-zero square root above `1e-6`, the divisions of `checkEject`
are defined. -/
theorem checkEjectChecked_eq (sqrt : F → F) (s M : Body F) (p : SimParams F)
    (hsqrt : ∀ x : F, 1 / 1000000 ≤ x → sqrt x ≠ 0) :
    checkEjectChecked sqrt s M p = some (checkEject sqrt s M p) := by
  simp only [checkEjectChecked, checkEject]
  split_ifs
  · simp only [divChecked_ne _ (hsqrt _ (le_max_right _ _)), Option.some_bind]
  · rfl

theorem softened_pos' (s M : Body F) (p : SimParams F) (hs : 0 < p.softening) :
    0 < (M.x - s.x) * (M.x - s.x) + (M.y - s.y) * (M.y - s.y) + p.softening * p.softening := by
  nlinarith [mul_self_nonneg (M.x - s.x), mul_self_nonneg (M.y - s.y), mul_pos hs hs]

theorem applyGravityFromMainsChecked_eq (sqrt : F → F) (s A B A2 B2 : Body F)
    (p : SimParams F) (dt : F) (hsqrt : ∀ x : F, 0 < x → sqrt x ≠ 0) (hs : 0 < p.softening) :
    applyGravityFromMainsChecked sqrt s A B A2 B2 p dt =
      some (applyGravityFromMains sqrt s A B A2 B2 p dt) := by
  have hg : ∀ (s M : Body F) (sign factor : F),
      gravOneChecked sqrt p dt s M sign factor = some (gravOne sqrt p dt s M sign factor) :=
    fun s M sign factor =>
      gravOneChecked_eq sqrt p dt s M sign factor (hsqrt _ (softened_pos' s M p hs))
  simp only [applyGravityFromMainsChecked, applyGravityFromMains, gravityFactorChecked_eq,
    Option.some_bind, hg]

theorem stepSatChecked_eq (sqrt : F → F) (A B A2 B2 : Body F) (p : SimParams F) (dt : F)
    (s : Body F) (hsqrt : ∀ x : F, 0 < x → sqrt x ≠ 0) (hs : 0 < p.softening) :
    stepSatChecked sqrt A B A2 B2 p dt s = some (stepSat sqrt A B A2 B2 p dt s) := by
  have he : ∀ s M : Body F, checkEjectChecked sqrt s M p = some (checkEject sqrt s M p) :=
    fun s M => checkEjectChecked_eq sqrt s M p
      (fun x hx => hsqrt x (lt_of_lt_of_le (by norm_num) hx))
  simp only [stepSatChecked, stepSat,
    applyGravityFromMainsChecked_eq sqrt _ A B A2 B2 p dt hsqrt hs, Option.some_bind, he]

theorem stepSatAtChecked_eq (sqrt : F → F) (p : SimParams F) (dt : F) (S : SimState F)
    (i : Nat) (hsqrt : ∀ x : F, 0 < x → sqrt x ≠ 0) (hs : 0 < p.softening) :
    stepSatAtChecked sqrt p dt S i = some (stepSatAt sqrt p dt S i) := by
  unfold stepSatAtChecked stepSatAt
  cases S.sats[i]? with
  | none => rfl
  | some s =>
    simp only [stepSatChecked_eq sqrt _ _ _ _ p dt s hsqrt hs, Option.some_bind]

theorem stepSatsChecked_eq (sqrt : F → F) (p : SimParams F) (dt : F) (S : SimState F)
    (hsqrt : ∀ x : F, 0 < x → sqrt x ≠ 0) (hs : 0 < p.softening) :
    stepSatsChecked sqrt p dt S = some (stepSats sqrt p dt S) := by
  unfold stepSatsChecked stepSats
  exact foldlM_some _ _ (fun S i => stepSatAtChecked_eq sqrt p dt S i hsqrt hs) _ S

theorem stepMainsChecked_eq (sqrt : F → F) (S : SimState F) (p : SimParams F) (dt : F)
    (hsqrt : ∀ x : F, 0 < x → sqrt x ≠ 0)
    (hA : 0 < S.mainA.mass) (hB : 0 < S.mainB.mass)
    (hA2 : 0 < S.mainA2.mass) (hB2 : 0 < S.mainB2.mass) :
    stepMainsChecked sqrt S p dt = some (stepMains sqrt S p dt) := by
  have hr : ∀ a b : Body F, 0 < a.mass → 0 < b.mass →
      resolveElasticCollisionChecked sqrt a b = some (resolveElasticCollision sqrt a b) :=
    fun a b ha hb => resolveElasticCollisionChecked_eq sqrt a b
      (fun x hx => hsqrt x (lt_trans (by norm_num) (not_le.mp hx))) ha hb
  have mA : 0 < (moveMain p dt S.mainA).mass := by rw [moveMain_mass]; exact hA
  have mB : 0 < (moveMain p dt S.mainB).mass := by rw [moveMain_mass]; exact hB
  have mA2 : 0 < (moveMain p dt S.mainA2).mass := by rw [moveMain_mass]; exact hA2
  have mB2 : 0 < (moveMain p dt S.mainB2).mass := by rw [moveMain_mass]; exact hB2
  have k1 : ∀ a b : Body F, 0 < a.mass → 0 < (resolveElasticCollision sqrt a b).1.mass :=
    fun a b h => by rw [(resolveElasticCollision_mass sqrt a b).1]; exact h
  have k2 : ∀ a b : Body F, 0 < b.mass → 0 < (resolveElasticCollision sqrt a b).2.mass :=
    fun a b h => by rw [(resolveElasticCollision_mass sqrt a b).2]; exact h
  unfold stepMainsChecked stepMains
  simp only []
  rw [hr _ _ mA mB, Option.some_bind, hr _ _ (k1 _ _ mA) mA2, Option.some_bind,
    hr _ _ (k1 _ _ (k1 _ _ mA)) mB2, Option.some_bind,
    hr _ _ (k2 _ _ mB) (k2 _ _ mA2), Option.some_bind,
    hr _ _ (k1 _ _ (k2 _ _ mB)) (k2 _ _ mB2), Option.some_bind,
    hr _ _ (k2 _ _ (k2 _ _ mA2)) (k2 _ _ (k2 _ _ mB2)), Option.some_bind]

theorem stepChecked_eq (sqrt : F → F) (S : SimState F) (p : SimParams F) (dt : F)
    (hsqrt : ∀ x : F, 0 < x → sqrt x ≠ 0) (hs : 0 < p.softening)
    (hA : 0 < S.mainA.mass) (hB : 0 < S.mainB.mass)
    (hA2 : 0 < S.mainA2.mass) (hB2 : 0 < S.mainB2.mass) :
    stepChecked sqrt S p dt = some (step sqrt S p dt) := by
  unfold stepChecked step
  rw [stepMainsChecked_eq sqrt S p dt hsqrt hA hB hA2 hB2, Option.some_bind,
    stepSatsChecked_eq sqrt p dt _ hsqrt hs]

/-! ## The regular expression of `parseTime` -/

theorem orElse_none {α : Type} (x : Option α) : (x.orElse fun _ => none) = x := by
  cases x <;> rfl

/-- A literal matches exactly the texts that start with it. -/
theorem reLit_iff {α : Type} (lit cs : List Char) (k : List Char → Option α) (v : α) :
    reLit lit cs k = some v ↔ ∃ r, cs = lit ++ r ∧ k r = some v := by
  unfold reLit
  constructor
  · intro h
    split_ifs at h with hp
    obtain ⟨r, hr⟩ := List.isPrefixOf_iff_prefix.mp hp
    refine ⟨r, hr.symm, ?_⟩
    rw [← hr, List.drop_left] at h
    exact h
  · rintro ⟨r, rfl, hk⟩
    rw [if_pos (List.isPrefixOf_iff_prefix.mpr (List.prefix_append _ _)), List.drop_left]
    exact hk

/-- A literal does not match a text that starts with another character. -/
theorem reLit_cons_ne {α : Type} (l c : Char) (ls r : List Char) (k : List Char → Option α)
    (h : c ≠ l) : reLit (l :: ls) (c :: r) k = none := by
  unfold reLit
  rw [if_neg]
  intro hp
  obtain ⟨t, ht⟩ := List.isPrefixOf_iff_prefix.mp hp
  simp only [List.cons_append, List.cons.injEq] at ht
  exact h ht.1.symm

/-- When the rest of the expression cannot start with a character of the
class, the greedy star matches exactly the decompositions `ws ++ r` with `ws`
in the class and `r` accepted by the rest. -/
theorem reStar_iff {α : Type} (p : Char → Bool) (cs : List Char) :
    ∀ (k : List Char → List Char → Option α),
      (∀ m c r, p c = true → k m (c :: r) = none) → ∀ v : α,
      (reStar p cs k = some v ↔
        ∃ ws r, cs = ws ++ r ∧ (∀ c ∈ ws, p c = true) ∧ k ws r = some v) := by
  induction cs with
  | nil =>
    intro k _ v
    simp only [reStar]
    constructor
    · intro h
      exact ⟨[], [], rfl, fun c hc => absurd hc (List.not_mem_nil c), h⟩
    · rintro ⟨ws, r, h, _, hk⟩
      obtain ⟨rfl, rfl⟩ := List.append_eq_nil.mp h.symm
      exact hk
  | cons c cs ih =>
    intro k hk v
    by_cases hc : p c = true
    · have hk' : ∀ m c' r, p c' = true → (fun m r => k (c :: m) r) m (c' :: r) = none :=
        fun m c' r h => hk (c :: m) c' r h
      simp only [reStar, if_pos hc, hk [] c cs hc, orElse_none]
      rw [ih _ hk' v]
      constructor
      · rintro ⟨ws, r, rfl, hws, h⟩
        refine ⟨c :: ws, r, rfl, ?_, h⟩
        intro x hx
        rcases List.mem_cons.mp hx with rfl | hx
        · exact hc
        · exact hws x hx
      · rintro ⟨ws, r, h, hws, hv⟩
        cases ws with
        | nil =>
          simp only [List.nil_append] at h
          rw [← h, hk [] c cs hc] at hv
          exact absurd hv (by simp)
        | cons c' ws =>
          simp only [List.cons_append, List.cons.injEq] at h
          obtain ⟨rfl, rfl⟩ := h
          exact ⟨ws, r, rfl, fun x hx => hws x (List.mem_cons_of_mem _ hx), hv⟩
    · simp only [reStar, if_neg hc]
      constructor
      · intro h
        exact ⟨[], c :: cs, rfl, fun x hx => absurd hx (List.not_mem_nil x), h⟩
      · rintro ⟨ws, r, h, hws, hv⟩
        cases ws with
        | nil =>
          simp only [List.nil_append] at h
          rw [h]
          exact hv
        | cons c' ws =>
          simp only [List.cons_append, List.cons.injEq] at h
          obtain ⟨rfl, rfl⟩ := h
          exact absurd (hws c (List.mem_cons_self _ _)) hc

/-- The greedy plus, under the same condition on the rest of the
expression. -/
theorem rePlus_iff {α : Type} (p : Char → Bool) (cs : List Char)
    (k : List Char → List Char → Option α)
    (hk : ∀ m c r, p c = true → k m (c :: r) = none) (v : α) :
    rePlus p cs k = some v ↔
      ∃ ws r, ws ≠ [] ∧ cs = ws ++ r ∧ (∀ c ∈ ws, p c = true) ∧ k ws r = some v := by
  cases cs with
  | nil =>
    simp only [rePlus]
    constructor
    · intro h
      exact absurd h (by simp)
    · rintro ⟨ws, r, hne, h, _, _⟩
      exact absurd (List.append_eq_nil.mp h.symm).1 hne
  | cons c cs =>
    by_cases hc : p c = true
    · have hk' : ∀ m c' r, p c' = true → (fun m r1 => k (c :: m) r1) m (c' :: r) = none :=
        fun m c' r h => hk (c :: m) c' r h
      simp only [rePlus, if_pos hc]
      rw [reStar_iff p cs _ hk' v]
      constructor
      · rintro ⟨ws, r, rfl, hws, h⟩
        refine ⟨c :: ws, r, List.cons_ne_nil _ _, rfl, ?_, h⟩
        intro x hx
        rcases List.mem_cons.mp hx with rfl | hx
        · exact hc
        · exact hws x hx
      · rintro ⟨ws, r, hne, h, hws, hv⟩
        cases ws with
        | nil => exact absurd rfl hne
        | cons c' ws =>
          simp only [List.cons_append, List.cons.injEq] at h
          obtain ⟨rfl, rfl⟩ := h
          exact ⟨ws, r, rfl, fun x hx => hws x (List.mem_cons_of_mem _ hx), hv⟩
    · simp only [rePlus, if_neg hc]
      constructor
      · intro h
        exact absurd h (by simp)
      · rintro ⟨ws, r, hne, h, hws, _⟩
        cases ws with
        | nil => exact absurd rfl hne
        | cons c' ws =>
          simp only [List.cons_append, List.cons.injEq] at h
          obtain ⟨rfl, rfl⟩ := h
          exact absurd (hws c (List.mem_cons_self _ _)) hc

theorem space_not_digit {c : Char} (h : isSpace c = true) : isDigit c = false := by
  simp only [isSpace, isDigit, decide_eq_true_eq, decide_eq_false_iff_not] at h ⊢
  omega

theorem digit_not_space {c : Char} (h : isDigit c = true) : isSpace c = false := by
  simp only [isSpace, isDigit, decide_eq_true_eq, decide_eq_false_iff_not] at h ⊢
  omega

theorem digit_ne_m {c : Char} (h : isDigit c = true) : c ≠ 'm' := by
  intro e
  subst e
  exact absurd h (by decide)

theorem digit_not_sep {c : Char} (h : isDigit c = true) : ¬ (c = '.' ∨ c = ',') := by
  rintro (e | e) <;> subst e <;> exact absurd h (by decide)

theorem space_ne_m {c : Char} (h : isSpace c = true) : c ≠ 'm' := by
  intro e
  subst e
  exact absurd h (by decide)

theorem space_ne_t {c : Char} (h : isSpace c = true) : c ≠ 't' := by
  intro e
  subst e
  exact absurd h (by decide)

theorem space_not_sep {c : Char} (h : isSpace c = true) : ¬ (c = '.' ∨ c = ',') := by
  rintro (e | e) <;> subst e <;> exact absurd h (by decide)

/-- The end `\s*ms` of the expression. -/
theorem reTail_iff (cap cs v : List Char) :
    reTail cap cs = some v ↔
      v = cap ∧ ∃ ws rest, IsSpaces ws ∧ cs = ws ++ ("ms".toList ++ rest) := by
  have hk : ∀ (m : List Char) (c : Char) (r : List Char), isSpace c = true →
      (fun (_ : List Char) (r : List Char) =>
        reLit "ms".toList r fun _ => some cap) m (c :: r) = none :=
    fun _ c r hc => reLit_cons_ne 'm' c ['s'] r _ (space_ne_m hc)
  unfold reTail
  rw [reStar_iff isSpace cs _ hk v]
  constructor
  · rintro ⟨ws, r, rfl, hws, h⟩
    obtain ⟨rest, rfl, hv⟩ := (reLit_iff _ _ _ _).mp h
    exact ⟨(Option.some.inj hv).symm, ws, rest, hws, rfl⟩
  · rintro ⟨rfl, ws, rest, hws, rfl⟩
    exact ⟨ws, _, rfl, hws, (reLit_iff _ _ _ _).mpr ⟨rest, rfl, rfl⟩⟩

/-- A text that starts with whitespace or with `m` does not start with a digit
or a separator. -/
theorem tail_head (ws rest : List Char) (hws : IsSpaces ws) (c : Char) (r : List Char)
    (h : ws ++ ("ms".toList ++ rest) = c :: r) :
    isDigit c = false ∧ ¬ (c = '.' ∨ c = ',') := by
  cases ws with
  | nil =>
    have hc : c = 'm' := by
      have := List.head_eq_of_cons_eq h
      exact this.symm
    subst hc
    exact ⟨by decide, by decide⟩
  | cons w ws =>
    have hc : w = c := List.head_eq_of_cons_eq h
    subst hc
    have hw := hws w (List.mem_cons_self _ _)
    exact ⟨space_not_digit hw, space_not_sep hw⟩

theorem reTail_digit (cap : List Char) (c : Char) (r : List Char) (hc : isDigit c = true) :
    reTail cap (c :: r) = none := by
  cases h : reTail cap (c :: r) with
  | none => rfl
  | some v =>
    obtain ⟨_, ws, rest, hws, hcs⟩ := (reTail_iff _ _ _).mp h
    have := (tail_head ws rest hws c r hcs.symm).1
    rw [hc] at this
    exact absurd this (by simp)

theorem reNumberEnd_digit (m : List Char) (c : Char) (r : List Char)
    (hc : isDigit c = true) : reNumberEnd m (c :: r) = none := by
  simp only [reNumberEnd, if_neg (digit_not_sep hc), Option.orElse, reTail_digit _ c r hc]

/-- The piece after the integer digits: either a separator, fraction digits
and the end, or the end at once. -/
theorem reNumberEnd_iff (ds r5 v : List Char) :
    reNumberEnd ds r5 = some v ↔
      (∃ sep fs ws rest, (sep = '.' ∨ sep = ',') ∧ IsDigits fs ∧ IsSpaces ws ∧
        v = ds ++ sep :: fs ∧ r5 = sep :: (fs ++ (ws ++ ("ms".toList ++ rest)))) ∨
      (v = ds ∧ ∃ ws rest, IsSpaces ws ∧ r5 = ws ++ ("ms".toList ++ rest)) := by
  have hk : ∀ (c0 : Char) (m : List Char) (c : Char) (r : List Char), isDigit c = true →
      (fun (fs r7 : List Char) => reTail (ds ++ c0 :: fs) r7) m (c :: r) = none :=
    fun _ _ c r hc => reTail_digit _ c r hc
  have hgroup : ∀ w : List Char,
      (match r5 with
        | [] => none
        | c :: r6 =>
          if c = '.' ∨ c = ',' then rePlus isDigit r6 fun fs r7 => reTail (ds ++ c :: fs) r7
          else none) = some w ↔
      ∃ sep fs ws rest, (sep = '.' ∨ sep = ',') ∧ IsDigits fs ∧ IsSpaces ws ∧
        w = ds ++ sep :: fs ∧ r5 = sep :: (fs ++ (ws ++ ("ms".toList ++ rest))) := by
    intro w
    cases r5 with
    | nil =>
      constructor
      · intro h
        exact absurd h (by simp)
      · rintro ⟨_, _, _, _, _, _, _, _, h⟩
        exact absurd h (by simp)
    | cons c r6 =>
      by_cases hsep : c = '.' ∨ c = ','
      · simp only [if_pos hsep]
        rw [rePlus_iff isDigit r6 _ (hk c) w]
        constructor
        · rintro ⟨fs, r7, hne, rfl, hfs, h⟩
          obtain ⟨hw, ws, rest, hws, rfl⟩ := (reTail_iff _ _ _).mp h
          exact ⟨c, fs, ws, rest, hsep, ⟨hne, hfs⟩, hws, hw, rfl⟩
        · rintro ⟨sep, fs, ws, rest, _, hfs, hws, hw, h⟩
          simp only [List.cons.injEq] at h
          obtain ⟨rfl, rfl⟩ := h
          exact ⟨fs, _, hfs.1, rfl, hfs.2, (reTail_iff _ _ _).mpr ⟨hw, ws, rest, hws, rfl⟩⟩
      · simp only [if_neg hsep]
        constructor
        · intro h
          exact absurd h (by simp)
        · rintro ⟨sep, fs, ws, rest, hs, _, _, _, h⟩
          simp only [List.cons.injEq] at h
          exact absurd (h.1 ▸ hs) hsep
  unfold reNumberEnd
  cases hg : (match r5 with
      | [] => none
      | c :: r6 =>
        if c = '.' ∨ c = ',' then rePlus isDigit r6 fun fs r7 => reTail (ds ++ c :: fs) r7
        else none) with
  | some w =>
    simp only [Option.orElse]
    constructor
    · intro h
      have hw : w = v := Option.some.inj h
      subst hw
      exact Or.inl ((hgroup w).mp hg)
    · rintro (h | ⟨_, ws, rest, hws, h⟩)
      · have := (hgroup v).mpr h
        rw [hg] at this
        exact this
      · obtain ⟨sep, fs, _, _, hs, _, _, _, h5⟩ := (hgroup w).mp hg
        exact absurd hs (tail_head ws rest hws sep _ (h.symm.trans h5)).2
  | none =>
    simp only [Option.orElse]
    rw [reTail_iff]
    constructor
    · intro h
      exact Or.inr h
    · rintro (h | h)
      · have := (hgroup v).mpr h
        rw [hg] at this
        exact absurd this (by simp)
      · exact h

/-- The number piece with the end of the expression. -/
theorem reNumber_iff (r4 v : List Char) :
    reNumber r4 = some v ↔
      ∃ ws rest, IsNumber v ∧ IsSpaces ws ∧ r4 = v ++ (ws ++ ("ms".toList ++ rest)) := by
  unfold reNumber
  rw [rePlus_iff isDigit r4 reNumberEnd (fun m c r hc => reNumberEnd_digit m c r hc) v]
  constructor
  · rintro ⟨ds, r5, hne, rfl, hds, h⟩
    rcases (reNumberEnd_iff _ _ _).mp h with ⟨sep, fs, ws, rest, hs, hfs, hws, rfl, rfl⟩ |
      ⟨rfl, ws, rest, hws, rfl⟩
    · refine ⟨ws, rest, Or.inr ⟨ds, sep, fs, ⟨hne, hds⟩, hs, hfs, rfl⟩, hws, ?_⟩
      simp only [List.append_assoc, List.cons_append]
    · exact ⟨ws, rest, Or.inl ⟨hne, hds⟩, hws, rfl⟩
  · rintro ⟨ws, rest, hnum, hws, rfl⟩
    rcases hnum with hd | ⟨ds, sep, fs, hds, hs, hfs, rfl⟩
    · exact ⟨v, _, hd.1, rfl, hd.2, (reNumberEnd_iff _ _ _).mpr (Or.inr ⟨rfl, ws, rest, hws, rfl⟩)⟩
    · refine ⟨ds, sep :: (fs ++ (ws ++ ("ms".toList ++ rest))), hds.1, ?_, hds.2,
        (reNumberEnd_iff _ _ _).mpr (Or.inl ⟨sep, fs, ws, rest, hs, hfs, hws, rfl, rfl⟩)⟩
      simp only [List.append_assoc, List.cons_append]

theorem reNumber_space (c : Char) (r : List Char) (hc : isSpace c = true) :
    reNumber (c :: r) = none := by
  simp only [reNumber, rePlus, space_not_digit hc]
  rfl

/-- The piece that starts at `total:`. -/
theorem reTotal_iff (r2 v : List Char) :
    reTotal r2 = some v ↔
      ∃ ws2 ws3 rest, IsSpaces ws2 ∧ IsSpaces ws3 ∧ IsNumber v ∧
        r2 = "total:".toList ++ (ws2 ++ (v ++ (ws3 ++ ("ms".toList ++ rest)))) := by
  have hk : ∀ (m : List Char) (c : Char) (r : List Char), isSpace c = true →
      (fun (_ : List Char) (r4 : List Char) => reNumber r4) m (c :: r) = none :=
    fun _ c r hc => reNumber_space c r hc
  unfold reTotal
  rw [reLit_iff]
  constructor
  · rintro ⟨r3, rfl, h⟩
    obtain ⟨ws2, r4, rfl, hws2, h4⟩ := (reStar_iff isSpace r3 _ hk v).mp h
    obtain ⟨ws3, rest, hnum, hws3, rfl⟩ := (reNumber_iff _ _).mp h4
    exact ⟨ws2, ws3, rest, hws2, hws3, hnum, rfl⟩
  · rintro ⟨ws2, ws3, rest, hws2, hws3, hnum, rfl⟩
    exact ⟨_, rfl, (reStar_iff isSpace _ _ hk v).mpr
      ⟨ws2, _, rfl, hws2, (reNumber_iff _ _).mpr ⟨ws3, rest, hnum, hws3, rfl⟩⟩⟩

theorem reTotal_space (c : Char) (r : List Char) (hc : isSpace c = true) :
    reTotal (c :: r) = none :=
  reLit_cons_ne 't' c _ r _ (space_ne_t hc)

/-- The expression matches at the start of `cs` with capture `v` exactly when
`cs` starts with a timing line whose number is `v`. -/
theorem timeRegexAt_iff (cs v : List Char) : timeRegexAt cs = some v ↔ TimeLineAt cs v := by
  have hk : ∀ (m : List Char) (c : Char) (r : List Char), isSpace c = true →
      (fun (_ : List Char) (r2 : List Char) => reTotal r2) m (c :: r) = none :=
    fun _ c r hc => reTotal_space c r hc
  unfold timeRegexAt TimeLineAt
  rw [reLit_iff]
  constructor
  · rintro ⟨r1, rfl, h⟩
    obtain ⟨ws1, r2, hne, rfl, hws1, h2⟩ := (rePlus_iff isSpace r1 _ hk v).mp h
    obtain ⟨ws2, ws3, rest, hws2, hws3, hnum, rfl⟩ := (reTotal_iff _ _).mp h2
    exact ⟨ws1, ws2, ws3, rest, hne, hws1, hws2, hws3, hnum, rfl⟩
  · rintro ⟨ws1, ws2, ws3, rest, hne, hws1, hws2, hws3, hnum, rfl⟩
    exact ⟨_, rfl, (rePlus_iff isSpace _ _ hk v).mpr
      ⟨ws1, _, hne, rfl, hws1, (reTotal_iff _ _).mpr ⟨ws2, ws3, rest, hws2, hws3, hnum, rfl⟩⟩⟩

/-- The search answers the match at the leftmost position that has one. -/
theorem regexSearch_leftmost (pre : List Char) :
    ∀ (cs v : List Char), timeRegexAt cs = some v →
      (∀ pre' cs', pre ++ cs = pre' ++ cs' → pre'.length < pre.length →
        timeRegexAt cs' = none) →
      regexSearch (pre ++ cs) = some v := by
  induction pre with
  | nil =>
    intro cs v h _
    cases cs with
    | nil => exact h
    | cons c cs =>
      show regexSearch (c :: cs) = some v
      rw [regexSearch, h]
      rfl
  | cons a pre ih =>
    intro cs v h hleft
    have h0 : timeRegexAt (a :: (pre ++ cs)) = none :=
      hleft [] _ rfl (Nat.succ_pos _)
    show regexSearch (a :: (pre ++ cs)) = some v
    rw [regexSearch, h0]
    show regexSearch (pre ++ cs) = some v
    apply ih cs v h
    intro pre' cs' he hlt
    exact hleft (a :: pre') cs' (by rw [List.cons_append, he, List.cons_append])
      (Nat.succ_lt_succ hlt)

/-- The search answers nothing when no position has a match. -/
theorem regexSearch_none (text : List Char) :
    (∀ pre cs, text = pre ++ cs → timeRegexAt cs = none) → regexSearch text = none := by
  induction text with
  | nil =>
    intro h
    exact h [] [] rfl
  | cons a text ih =>
    intro h
    rw [regexSearch, h [] _ rfl]
    show regexSearch text = none
    exact ih (fun pre cs he => h (a :: pre) cs (by rw [he, List.cons_append]))

/-! ## The value of the captured number -/

theorem digits_takeWhile {ds : List Char} (h : ∀ c ∈ ds, isDigit c = true) (c : Char)
    (r : List Char) (hc : isDigit c = false) :
    (ds ++ c :: r).takeWhile isDigit = ds ∧ (ds ++ c :: r).dropWhile isDigit = c :: r := by
  rw [List.takeWhile_append_of_pos h, List.dropWhile_append_of_pos h]
  simp [List.takeWhile_cons, List.dropWhile_cons, hc]

theorem digits_map {ds : List Char} (h : ∀ c ∈ ds, isDigit c = true) :
    ds.map (fun c => if c = ',' then '.' else c) = ds := by
  have : ∀ c ∈ ds, (fun c => if c = ',' then '.' else c) c = id c := by
    intro c hc
    have hne : c ≠ ',' := fun e => digit_not_sep (h c hc) (Or.inr e)
    simp only [if_neg hne, id]
  rw [List.map_congr_left this, List.map_id]

theorem sep_not_digit {sep : Char} (hs : sep = '.' ∨ sep = ',') : isDigit sep = false := by
  rcases hs with rfl | rfl <;> decide

/-- The value of a number without a fraction. -/
theorem numberValue_digits {ds : List Char} (h : IsDigits ds) :
    (numberValue ds : F) = (natOfDigits ds : F) := by
  unfold numberValue
  rw [List.takeWhile_eq_self_iff.mpr h.2, List.dropWhile_eq_nil_iff.mpr h.2]
  simp

/-- The value of a number with a fraction: `.` and `,` both are the decimal
point. -/
theorem numberValue_fraction {ds fs : List Char} {sep : Char} (hd : IsDigits ds)
    (hs : sep = '.' ∨ sep = ',') :
    (numberValue (ds ++ sep :: fs) : F) =
      (natOfDigits ds : F) + (natOfDigits fs : F) / 10 ^ fs.length := by
  unfold numberValue
  obtain ⟨h1, h2⟩ := digits_takeWhile hd.2 sep fs (sep_not_digit hs)
  rw [h1, h2]

/-- On a number of the timing line, `std::stod` after the replacement of `,`
by `.` gives the value of the number. -/
theorem decimalValue_map {num : List Char} (h : IsNumber num) :
    (decimalValue (num.map fun c => if c = ',' then '.' else c) : F) = numberValue num := by
  rcases h with hd | ⟨ds, sep, fs, hd, hs, hf, rfl⟩
  · rw [digits_map hd.2, numberValue_digits hd]
    unfold decimalValue
    rw [List.takeWhile_eq_self_iff.mpr hd.2, List.dropWhile_eq_nil_iff.mpr hd.2]
    simp
  · rw [numberValue_fraction hd hs]
    have hm : (ds ++ sep :: fs).map (fun c => if c = ',' then '.' else c) = ds ++ '.' :: fs := by
      rw [List.map_append, List.map_cons, digits_map hd.2, digits_map hf.2]
      rcases hs with rfl | rfl <;> simp
    rw [hm]
    unfold decimalValue
    obtain ⟨h1, h2⟩ := digits_takeWhile hd.2 '.' fs (by decide)
    rw [h1, h2]
    simp only [if_true, List.takeWhile_eq_self_iff.mpr hf.2]

end Lemmas

/-! ## Facts that depend on the square root -/

section RealLemmas

/-- For a non-negative contact distance the squared test of `checkEject` is the
test "centre distance ≤ sum of radii". -/
theorem contact_iff (s M : Body ℝ) (hr : 0 ≤ s.radius + M.radius) :
    Real.sqrt ((s.x - M.x) ^ 2 + (s.y - M.y) ^ 2) ≤ s.radius + M.radius ↔
      (s.x - M.x) * (s.x - M.x) + (s.y - M.y) * (s.y - M.y) ≤
        (s.radius + M.radius) * (s.radius + M.radius) := by
  rw [Real.sqrt_le_left hr]
  constructor <;> intro h <;> nlinarith [h]

/-- The cube of the reciprocal square root is the reciprocal of the power
`3/2`. -/
theorem invr3_eq (r2 : ℝ) (h : 0 < r2) :
    1 / Real.sqrt r2 * (1 / Real.sqrt r2) * (1 / Real.sqrt r2) = 1 / r2 ^ ((3 : ℝ) / 2) := by
  have h3 : r2 ^ ((3 : ℝ) / 2) = Real.sqrt r2 * Real.sqrt r2 * Real.sqrt r2 := by
    rw [Real.sqrt_eq_rpow, ← Real.rpow_add h, ← Real.rpow_add h]
    norm_num
  rw [h3]
  have : Real.sqrt r2 ≠ 0 := ne_of_gt (Real.sqrt_pos.mpr h)
  field_simp

theorem softened_pos (s M : Body ℝ) (p : SimParams ℝ) (hs : 0 < p.softening) :
    0 < (M.x - s.x) * (M.x - s.x) + (M.y - s.y) * (M.y - s.y) + p.softening * p.softening := by
  nlinarith [mul_self_nonneg (M.x - s.x), mul_self_nonneg (M.y - s.y), mul_pos hs hs]

/-- One main's contribution to the horizontal velocity. -/
theorem gravOne_vx (p : SimParams ℝ) (dt : ℝ) (s M : Body ℝ) (sign factor : ℝ)
    (hs : 0 < p.softening) :
    (gravOne Real.sqrt p dt s M sign factor).vx =
      s.vx + dt * (sign * factor * p.G * M.mass * (M.x - s.x) /
        ((M.x - s.x) ^ 2 + (M.y - s.y) ^ 2 + p.softening ^ 2) ^ ((3 : ℝ) / 2)) := by
  have h := invr3_eq _ (softened_pos s M p hs)
  simp only [gravOne]
  rw [h]
  have e : (M.x - s.x) * (M.x - s.x) + (M.y - s.y) * (M.y - s.y) + p.softening * p.softening =
      (M.x - s.x) ^ 2 + (M.y - s.y) ^ 2 + p.softening ^ 2 := by ring
  rw [e]
  ring

/-- One main's contribution to the vertical velocity. -/
theorem gravOne_vy (p : SimParams ℝ) (dt : ℝ) (s M : Body ℝ) (sign factor : ℝ)
    (hs : 0 < p.softening) :
    (gravOne Real.sqrt p dt s M sign factor).vy =
      s.vy + dt * (sign * factor * p.G * M.mass * (M.y - s.y) /
        ((M.x - s.x) ^ 2 + (M.y - s.y) ^ 2 + p.softening ^ 2) ^ ((3 : ℝ) / 2)) := by
  have h := invr3_eq _ (softened_pos s M p hs)
  simp only [gravOne]
  rw [h]
  have e : (M.x - s.x) * (M.x - s.x) + (M.y - s.y) * (M.y - s.y) + p.softening * p.softening =
      (M.x - s.x) ^ 2 + (M.y - s.y) ^ 2 + p.softening ^ 2 := by ring
  rw [e]
  ring

/-- Two bodies whose centres are at least the sum of their radii apart are
returned unchanged by `resolveElasticCollision`. -/
theorem resolveElasticCollision_apart (a b : Body ℝ) (hr : 0 ≤ a.radius + b.radius)
    (h : (a.radius + b.radius) ^ 2 ≤
      (b.x - a.x) * (b.x - a.x) + (b.y - a.y) * (b.y - a.y)) :
    resolveElasticCollision Real.sqrt a b = (a, b) := by
  have hge : Real.sqrt ((b.x - a.x) * (b.x - a.x) + (b.y - a.y) * (b.y - a.y)) ≥
      a.radius + b.radius :=
    (Real.le_sqrt hr (le_trans (sq_nonneg _) h)).mpr h
  simp only [resolveElasticCollision]
  split_ifs
  · rfl
  · rfl

/-- The main bodies of the demo state are at rest and far apart: the first
half of `step` leaves the demo state as it is. -/
theorem stepMains_demoState :
    stepMains Real.sqrt (demoState : SimState ℝ) zeroGParams (2 / 125) = demoState := by
  have hA : moveMain zeroGParams (2 / 125) (demoState : SimState ℝ).mainA = demoState.mainA :=
    moveMain_rest _ _ _ rfl rfl (by norm_num [insideWalls, demoState, zeroGParams, SimParams.init])
  have hB : moveMain zeroGParams (2 / 125) (demoState : SimState ℝ).mainB = demoState.mainB :=
    moveMain_rest _ _ _ rfl rfl (by norm_num [insideWalls, demoState, zeroGParams, SimParams.init])
  have hA2 : moveMain zeroGParams (2 / 125) (demoState : SimState ℝ).mainA2 = demoState.mainA2 :=
    moveMain_rest _ _ _ rfl rfl (by norm_num [insideWalls, demoState, zeroGParams, SimParams.init])
  have hB2 : moveMain zeroGParams (2 / 125) (demoState : SimState ℝ).mainB2 = demoState.mainB2 :=
    moveMain_rest _ _ _ rfl rfl (by norm_num [insideWalls, demoState, zeroGParams, SimParams.init])
  have c1 := resolveElasticCollision_apart (demoState : SimState ℝ).mainA demoState.mainB
    (by norm_num [demoState]) (by norm_num [demoState])
  have c2 := resolveElasticCollision_apart (demoState : SimState ℝ).mainA demoState.mainA2
    (by norm_num [demoState]) (by norm_num [demoState])
  have c3 := resolveElasticCollision_apart (demoState : SimState ℝ).mainA demoState.mainB2
    (by norm_num [demoState]) (by norm_num [demoState])
  have c4 := resolveElasticCollision_apart (demoState : SimState ℝ).mainB demoState.mainA2
    (by norm_num [demoState]) (by norm_num [demoState])
  have c5 := resolveElasticCollision_apart (demoState : SimState ℝ).mainB demoState.mainB2
    (by norm_num [demoState]) (by norm_num [demoState])
  have c6 := resolveElasticCollision_apart (demoState : SimState ℝ).mainA2 demoState.mainB2
    (by norm_num [demoState]) (by norm_num [demoState])
  simp only [stepMains, hA, hB, hA2, hB2, c1, c2, c3, c4, c5, c6]

/-- The contact normal of two bodies whose centres are more than `0.01`
apart is a unit vector. -/
theorem normal_unit (dx dy : ℝ) (h : ¬ dx * dx + dy * dy ≤ 1 / 10000) :
    0 < Real.sqrt (dx * dx + dy * dy) ∧
    (dx / Real.sqrt (dx * dx + dy * dy)) ^ 2 + (dy / Real.sqrt (dx * dx + dy * dy)) ^ 2 = 1 := by
  have hpos : 0 < dx * dx + dy * dy := lt_trans (by norm_num) (not_le.mp h)
  have hd : 0 < Real.sqrt (dx * dx + dy * dy) := Real.sqrt_pos.mpr hpos
  have hdd : Real.sqrt (dx * dx + dy * dy) ^ 2 = dx * dx + dy * dy := Real.sq_sqrt (le_of_lt hpos)
  refine ⟨hd, ?_⟩
  rw [div_pow, div_pow, ← add_div, hdd]
  have : dx ^ 2 + dy ^ 2 = dx * dx + dy * dy := by ring
  rw [this]
  exact div_self (ne_of_gt hpos)

/-- An impulse `j` along a unit normal with `j * (1/m1 + 1/m2) = -2 * relVel`
leaves the kinetic energy of the pair unchanged. -/
theorem impulse_energy (m1 m2 v1x v1y v2x v2y nx ny j : ℝ) (h1 : m1 ≠ 0) (h2 : m2 ≠ 0)
    (hn : nx ^ 2 + ny ^ 2 = 1)
    (hj : j * (1 / m1 + 1 / m2) = -2 * ((v2x - v1x) * nx + (v2y - v1y) * ny)) :
    1 / 2 * m1 * ((v1x - j * nx / m1) ^ 2 + (v1y - j * ny / m1) ^ 2) +
      1 / 2 * m2 * ((v2x + j * nx / m2) ^ 2 + (v2y + j * ny / m2) ^ 2) =
    1 / 2 * m1 * (v1x ^ 2 + v1y ^ 2) + 1 / 2 * m2 * (v2x ^ 2 + v2y ^ 2) := by
  have ha : m1 * m1⁻¹ = 1 := mul_inv_cancel₀ h1
  have hb : m2 * m2⁻¹ = 1 := mul_inv_cancel₀ h2
  linear_combination
    (-j * (v1x * nx + v1y * ny) + 1 / 2 * m1⁻¹ * j ^ 2 * (nx ^ 2 + ny ^ 2)) * ha +
    (j * (v2x * nx + v2y * ny) + 1 / 2 * m2⁻¹ * j ^ 2 * (nx ^ 2 + ny ^ 2)) * hb +
    (1 / 2 * (m1⁻¹ + m2⁻¹) * j ^ 2) * hn + (1 / 2 * j) * hj

/-- The impulse magnitude computed by `resolveElasticCollision`. -/
theorem impulse_value (m1 m2 relVel : ℝ) (h1 : 0 < m1) (h2 : 0 < m2) :
    -(1 + 1) * relVel / (1 / m1 + 1 / m2) * (1 / m1 + 1 / m2) = -2 * relVel := by
  have hmu : 0 < 1 / m1 + 1 / m2 := add_pos (one_div_pos.mpr h1) (one_div_pos.mpr h2)
  rw [div_mul_cancel₀ _ (ne_of_gt hmu)]
  ring

end RealLemmas

/-! ## Claims -/

section Claims

variable {F : Type} [LinearOrderedField F]

/-- C1. Cooldown non-negativity is an invariant of `step`: for every
`SimParams` with `ejectCooldownSec ≥ 0`, every `dt` and every state in which
each satellite has `eject_cooldown ≥ 0`, every satellite has
`eject_cooldown ≥ 0` after `step`, and after any number of steps; the state
produced by `initSim` has all satellite cooldowns equal to `0`, so the
invariant holds along every run started from it. -/
theorem eject_cooldown_nonneg (sqrt : F → F) (p : SimParams F) (dt : F)
    (hE : 0 ≤ p.ejectCooldownSec) :
    (∀ S : SimState F, (∀ s ∈ S.sats, 0 ≤ s.eject_cooldown) →
      (∀ s ∈ (step sqrt S p dt).sats, 0 ≤ s.eject_cooldown) ∧
      ∀ n : Nat, ∀ s ∈ (stepN sqrt p dt n S).sats, 0 ≤ s.eject_cooldown) ∧
    (∀ (randMax : Nat) (rand : Nat → Nat) (S0 S : SimState F),
      initSim randMax rand S0 p = some S →
      (∀ s ∈ S.sats, s.eject_cooldown = 0) ∧
      ∀ n : Nat, ∀ s ∈ (stepN sqrt p dt n S).sats, 0 ≤ s.eject_cooldown) := by
  refine ⟨fun S h => ⟨step_cooldown_nonneg sqrt S p dt hE h,
    fun n => stepN_cooldown_nonneg sqrt p dt hE n S h⟩, ?_⟩
  intro randMax rand S0 S hinit
  have h0 : ∀ s ∈ S.sats, s.eject_cooldown = 0 := by
    unfold initSim at hinit
    split_ifs at hinit
    simp only [Option.some.injEq] at hinit
    subst hinit
    intro s hs
    simp only [List.mem_map] at hs
    obtain ⟨i, _, rfl⟩ := hs
    rfl
  exact ⟨h0, fun n => stepN_cooldown_nonneg sqrt p dt hE n S
    (fun s hs => le_of_eq (h0 s hs).symm)⟩

/-- Witness for C1: the default parameters, `dt = 0.016`, 100 frames from the
demo state. -/
theorem eject_cooldown_nonneg_witness :
    (0 : ℝ) ≤ (SimParams.init : SimParams ℝ).ejectCooldownSec ∧
    ∀ s ∈ (stepN Real.sqrt SimParams.init (2 / 125) 100 (demoState : SimState ℝ)).sats,
      0 ≤ s.eject_cooldown :=
  ⟨by norm_num [SimParams.init],
   ((eject_cooldown_nonneg Real.sqrt (SimParams.init : SimParams ℝ) (2 / 125)
      (by norm_num [SimParams.init])).1 demoState
      (by simp [demoState, driftSat, grazingSat])).2 100⟩

/-- C3. The gravity ramp factor of `applyGravityFromMains`, as a function of
the cooldown (with `ejectCooldownSec > 0` and `postEjectGravityFactor` in
`[0,1]`, of which only `postEjectGravityFactor ≤ 1` is used): it is the value `applyGravityFromMains` passes to every `gravOne`;
at `cooldown = ejectCooldownSec` it equals `postEjectGravityFactor`; at
`cooldown = 0` it equals `1`; and it does not decrease as the cooldown
decreases: `0 ≤ c1 ≤ c2` gives `factor c2 ≤ factor c1`. -/
theorem gravityFactor_ramp (p : SimParams F) (hE : 0 < p.ejectCooldownSec)
    (h1 : p.postEjectGravityFactor ≤ 1) :
    (∀ (sqrt : F → F) (s A B A2 B2 : Body F) (dt : F),
        applyGravityFromMains sqrt s A B A2 B2 p dt =
          gravOne sqrt p dt (gravOne sqrt p dt (gravOne sqrt p dt
            (gravOne sqrt p dt s A p.mainSignA (gravityFactor p s.eject_cooldown))
            B p.mainSignB (gravityFactor p s.eject_cooldown))
            A2 p.mainSignA (gravityFactor p s.eject_cooldown))
            B2 p.mainSignB (gravityFactor p s.eject_cooldown)) ∧
    gravityFactor p p.ejectCooldownSec = p.postEjectGravityFactor ∧
    gravityFactor p 0 = 1 ∧
    ∀ c1 c2 : F, 0 ≤ c1 → c1 ≤ c2 → gravityFactor p c2 ≤ gravityFactor p c1 := by
  refine ⟨fun _ _ _ _ _ _ _ => rfl, ?_, ?_, ?_⟩
  · have hne : p.ejectCooldownSec ≠ 0 := ne_of_gt hE
    simp [gravityFactor, clampf, hE, div_self hne]
  · simp [gravityFactor]
  · intro c1 c2 hc1 h12
    rcases eq_or_lt_of_le hc1 with hz | hpos
    · have : gravityFactor p c1 = 1 := by
        rw [← hz]; simp [gravityFactor]
      rw [this]
      exact gravityFactor_le_one p c2 h1
    · have hpos2 : 0 < c2 := lt_of_lt_of_le hpos h12
      have hm : clampf (c1 / p.ejectCooldownSec) 0 1 ≤ clampf (c2 / p.ejectCooldownSec) 0 1 :=
        clampf_mono (div_le_div_of_nonneg_right h12 (le_of_lt hE))
      simp only [gravityFactor, gt_iff_lt, hpos, hpos2, hE, and_self, if_true]
      nlinarith [hm, h1]

/-- Witness for C3: the default parameters (`ejectCooldownSec = 0.6`,
`postEjectGravityFactor = 0.35`). -/
theorem gravityFactor_ramp_witness :
    gravityFactor (SimParams.init : SimParams ℚ) (3 / 5) = 7 / 20 ∧
    gravityFactor (SimParams.init : SimParams ℚ) (3 / 10) = 27 / 40 ∧
    gravityFactor (SimParams.init : SimParams ℚ) 0 = 1 ∧
    ∀ c1 c2 : ℚ, 0 ≤ c1 → c1 ≤ c2 →
      gravityFactor (SimParams.init : SimParams ℚ) c2 ≤
        gravityFactor (SimParams.init : SimParams ℚ) c1 :=
  ⟨(gravityFactor_ramp (SimParams.init : SimParams ℚ)
      (by norm_num [SimParams.init]) (by norm_num [SimParams.init])).2.1,
   by norm_num [gravityFactor, clampf, SimParams.init],
   (gravityFactor_ramp (SimParams.init : SimParams ℚ)
      (by norm_num [SimParams.init]) (by norm_num [SimParams.init])).2.2.1,
   (gravityFactor_ramp (SimParams.init : SimParams ℚ)
      (by norm_num [SimParams.init]) (by norm_num [SimParams.init])).2.2.2⟩

/-- C4. `resolveElasticCollision` conserves the momentum of the pair: for
bodies with positive masses, whatever their positions and velocities (and
whatever `std::sqrt` returns), the masses are unchanged and
`a.mass*a.vx + b.mass*b.vx` and `a.mass*a.vy + b.mass*b.vy` have the same
values after the call as before it. -/
theorem resolveElasticCollision_momentum (sqrt : F → F) (a b : Body F)
    (ha : 0 < a.mass) (hb : 0 < b.mass) :
    (resolveElasticCollision sqrt a b).1.mass = a.mass ∧
    (resolveElasticCollision sqrt a b).2.mass = b.mass ∧
    (resolveElasticCollision sqrt a b).1.mass * (resolveElasticCollision sqrt a b).1.vx +
      (resolveElasticCollision sqrt a b).2.mass * (resolveElasticCollision sqrt a b).2.vx =
        a.mass * a.vx + b.mass * b.vx ∧
    (resolveElasticCollision sqrt a b).1.mass * (resolveElasticCollision sqrt a b).1.vy +
      (resolveElasticCollision sqrt a b).2.mass * (resolveElasticCollision sqrt a b).2.vy =
        a.mass * a.vy + b.mass * b.vy := by
  have hma : a.mass ≠ 0 := ne_of_gt ha
  have hmb : b.mass ≠ 0 := ne_of_gt hb
  simp only [resolveElasticCollision]
  split_ifs
  · exact ⟨rfl, rfl, rfl, rfl⟩
  · exact ⟨rfl, rfl, rfl, rfl⟩
  · exact ⟨rfl, rfl, rfl, rfl⟩
  · exact ⟨rfl, rfl, impulse_momentum hma hmb _ _ _, impulse_momentum hma hmb _ _ _⟩

/-- Witness for C4: the two default main bodies, overlapping and approaching
each other head-on. -/
theorem resolveElasticCollision_momentum_witness :
    (0 : ℝ) < (headOnA : Body ℝ).mass ∧ (0 : ℝ) < (headOnB : Body ℝ).mass ∧
    (resolveElasticCollision Real.sqrt headOnA headOnB).1.mass *
        (resolveElasticCollision Real.sqrt headOnA headOnB).1.vx +
      (resolveElasticCollision Real.sqrt headOnA headOnB).2.mass *
        (resolveElasticCollision Real.sqrt headOnA headOnB).2.vx =
      (headOnA : Body ℝ).mass * (headOnA : Body ℝ).vx +
        (headOnB : Body ℝ).mass * (headOnB : Body ℝ).vx :=
  ⟨by norm_num [headOnA], by norm_num [headOnB],
   (resolveElasticCollision_momentum Real.sqrt headOnA headOnB
      (by norm_num [headOnA]) (by norm_num [headOnB])).2.2.1⟩

/-- C7. The satellite phase of `step` is a pointwise map.  With `M` the state
after the four `moveMain` calls and the six collision resolutions of this
step and `f = stepSat` against the main bodies of `M`: the satellite loop
leaves the main bodies of `M` as they are and sends the satellite list to
`sats.map f` (same length, same order, index by index).  Consequently the
loop run on any selection `idx` of the satellites alone (a worker's sub-range,
contiguous or striped, in any order) yields the sequential results at those
indices; the loop run separately on the two parts of any split yields the two
parts of the sequential result; and the loop run on any permutation of the
list yields the same permutation of the sequential result. -/
theorem step_sats_pointwise (sqrt : F → F) (S : SimState F) (p : SimParams F) (dt : F) :
    let M := stepMains sqrt S p dt
    let f := stepSat sqrt M.mainA M.mainB M.mainA2 M.mainB2 p dt
    step sqrt S p dt = { M with sats := S.sats.map f } ∧
    (step sqrt S p dt).sats.length = S.sats.length ∧
    (∀ i : Nat, (step sqrt S p dt).sats[i]? = (S.sats[i]?).map f) ∧
    (∀ idx : List Nat,
      (stepSats sqrt p dt { M with sats := idx.filterMap (fun i => S.sats[i]?) }).sats =
        idx.filterMap (fun i => (step sqrt S p dt).sats[i]?)) ∧
    (∀ l1 l2 : List (Body F), S.sats = l1 ++ l2 →
      (step sqrt S p dt).sats =
        (stepSats sqrt p dt { M with sats := l1 }).sats ++
          (stepSats sqrt p dt { M with sats := l2 }).sats) ∧
    (∀ (l : List (Body F)) (σ : List Nat), l = σ.filterMap (fun i => S.sats[i]?) →
      σ.Perm (List.range S.sats.length) →
      l.Perm S.sats ∧
      (stepSats sqrt p dt { M with sats := l }).sats =
        σ.filterMap (fun i => (step sqrt S p dt).sats[i]?) ∧
      (stepSats sqrt p dt { M with sats := l }).sats.Perm (step sqrt S p dt).sats) := by
  intro M f
  have hstep : step sqrt S p dt = { M with sats := S.sats.map f } := by
    rw [step, stepSats_eq_map]
    rfl
  have hsats : (step sqrt S p dt).sats = S.sats.map f := by rw [hstep]
  have hsel : ∀ idx : List Nat,
      (stepSats sqrt p dt { M with sats := idx.filterMap (fun i => S.sats[i]?) }).sats =
        idx.filterMap (fun i => (step sqrt S p dt).sats[i]?) := by
    intro idx
    rw [stepSats_eq_map, hsats]
    simp only [List.getElem?_map, List.map_filterMap]
  refine ⟨hstep, ?_, ?_, hsel, ?_, ?_⟩
  · rw [hsats, List.length_map]
  · intro i
    rw [hsats, List.getElem?_map]
  · intro l1 l2 h
    rw [hsats, h, stepSats_eq_map, stepSats_eq_map, List.map_append]
  · intro l σ hl hσ
    have hperm : l.Perm S.sats := by
      rw [hl]
      have := List.Perm.filterMap (fun i => S.sats[i]?) hσ
      rwa [filterMap_getElem?_range] at this
    refine ⟨hperm, ?_, ?_⟩
    · rw [hl]
      exact hsel σ
    · rw [stepSats_eq_map, hsats]
      exact hperm.map _

/-- Witness for C7: the two satellites of the demo state processed as two
separate one-element ranges give the sequential result. -/
theorem step_sats_pointwise_witness :
    (step Real.sqrt (demoState : SimState ℝ) zeroGParams (2 / 125)).sats =
      (stepSats Real.sqrt zeroGParams (2 / 125)
        { stepMains Real.sqrt (demoState : SimState ℝ) zeroGParams (2 / 125) with
          sats := [driftSat] }).sats ++
      (stepSats Real.sqrt zeroGParams (2 / 125)
        { stepMains Real.sqrt (demoState : SimState ℝ) zeroGParams (2 / 125) with
          sats := [grazingSat] }).sats :=
  (step_sats_pointwise Real.sqrt (demoState : SimState ℝ) zeroGParams (2 / 125)).2.2.2.2.1
    [driftSat] [grazingSat] rfl

/-- C9. `applyGravityFromMains` is softened inverse-square superposition: for
every satellite `s`, mains `A, B, A2, B2`, parameters with `softening > 0` and
`dt`, it leaves position, radius, mass and cooldown (and colour and flag)
unchanged and adds to the velocity `dt` times the sum over the four mains `M`
of `sign(M) * factor * G * M.mass * (M.pos - s.pos) /
(|M.pos - s.pos|² + softening²)^(3/2)`, every term at the same satellite
position and with the same ramp factor, with `mainSignA` for `A`, `A2` and
`mainSignB` for `B`, `B2`.  In `step` the position is then advanced with the
velocity that `applyGravityFromMains` has just produced. -/
theorem applyGravityFromMains_superposition (s A B A2 B2 : Body ℝ) (p : SimParams ℝ)
    (dt : ℝ) (hs : 0 < p.softening) :
    let g := applyGravityFromMains Real.sqrt s A B A2 B2 p dt
    let k := gravityFactor p s.eject_cooldown
    g.x = s.x ∧ g.y = s.y ∧ g.radius = s.radius ∧ g.mass = s.mass ∧
    g.eject_cooldown = s.eject_cooldown ∧ g.color = s.color ∧ g.is_main = s.is_main ∧
    g.vx = s.vx + dt *
      (p.mainSignA * k * p.G * A.mass * (A.x - s.x) /
          ((A.x - s.x) ^ 2 + (A.y - s.y) ^ 2 + p.softening ^ 2) ^ ((3 : ℝ) / 2) +
       p.mainSignB * k * p.G * B.mass * (B.x - s.x) /
          ((B.x - s.x) ^ 2 + (B.y - s.y) ^ 2 + p.softening ^ 2) ^ ((3 : ℝ) / 2) +
       p.mainSignA * k * p.G * A2.mass * (A2.x - s.x) /
          ((A2.x - s.x) ^ 2 + (A2.y - s.y) ^ 2 + p.softening ^ 2) ^ ((3 : ℝ) / 2) +
       p.mainSignB * k * p.G * B2.mass * (B2.x - s.x) /
          ((B2.x - s.x) ^ 2 + (B2.y - s.y) ^ 2 + p.softening ^ 2) ^ ((3 : ℝ) / 2)) ∧
    g.vy = s.vy + dt *
      (p.mainSignA * k * p.G * A.mass * (A.y - s.y) /
          ((A.x - s.x) ^ 2 + (A.y - s.y) ^ 2 + p.softening ^ 2) ^ ((3 : ℝ) / 2) +
       p.mainSignB * k * p.G * B.mass * (B.y - s.y) /
          ((B.x - s.x) ^ 2 + (B.y - s.y) ^ 2 + p.softening ^ 2) ^ ((3 : ℝ) / 2) +
       p.mainSignA * k * p.G * A2.mass * (A2.y - s.y) /
          ((A2.x - s.x) ^ 2 + (A2.y - s.y) ^ 2 + p.softening ^ 2) ^ ((3 : ℝ) / 2) +
       p.mainSignB * k * p.G * B2.mass * (B2.y - s.y) /
          ((B2.x - s.x) ^ 2 + (B2.y - s.y) ^ 2 + p.softening ^ 2) ^ ((3 : ℝ) / 2)) ∧
    ∀ s0 : Body ℝ,
      stepSat Real.sqrt A B A2 B2 p dt s0 =
        checkEject Real.sqrt (checkEject Real.sqrt (checkEject Real.sqrt (checkEject Real.sqrt
          (bounceWalls
            (advance dt (applyGravityFromMains Real.sqrt (decayCooldown dt s0) A B A2 B2 p dt))
            p) A p) B p) A2 p) B2 p ∧
      (advance dt (applyGravityFromMains Real.sqrt (decayCooldown dt s0) A B A2 B2 p dt)).x =
        s0.x + (applyGravityFromMains Real.sqrt (decayCooldown dt s0) A B A2 B2 p dt).vx * dt ∧
      (advance dt (applyGravityFromMains Real.sqrt (decayCooldown dt s0) A B A2 B2 p dt)).y =
        s0.y + (applyGravityFromMains Real.sqrt (decayCooldown dt s0) A B A2 B2 p dt).vy * dt := by
  intro g k
  refine ⟨rfl, rfl, rfl, rfl, rfl, rfl, rfl, ?_, ?_, fun s0 => ⟨rfl, ?_, ?_⟩⟩
  rotate_left 2
  · show (decayCooldown dt s0).x + _ = _
    rw [decayCooldown_x]
  · show (decayCooldown dt s0).y + _ = _
    rw [decayCooldown_y]
  · show (gravOne Real.sqrt p dt (gravOne Real.sqrt p dt (gravOne Real.sqrt p dt
      (gravOne Real.sqrt p dt s A p.mainSignA k) B p.mainSignB k) A2 p.mainSignA k)
      B2 p.mainSignB k).vx = _
    rw [gravOne_vx _ _ _ _ _ _ hs, gravOne_vx _ _ _ _ _ _ hs, gravOne_vx _ _ _ _ _ _ hs,
      gravOne_vx _ _ _ _ _ _ hs]
    simp only [gravOne_x, gravOne_y]
    ring
  · show (gravOne Real.sqrt p dt (gravOne Real.sqrt p dt (gravOne Real.sqrt p dt
      (gravOne Real.sqrt p dt s A p.mainSignA k) B p.mainSignB k) A2 p.mainSignA k)
      B2 p.mainSignB k).vy = _
    rw [gravOne_vy _ _ _ _ _ _ hs, gravOne_vy _ _ _ _ _ _ hs, gravOne_vy _ _ _ _ _ _ hs,
      gravOne_vy _ _ _ _ _ _ hs]
    simp only [gravOne_x, gravOne_y]
    ring

/-- Witness for C9: the satellite overlapping `mainA` under the four main
bodies of the demo state, default parameters (`softening = 8`), `dt = 0.016`:
its position is kept and its horizontal velocity gains `dt` times the four
softened inverse-square terms. -/
theorem applyGravityFromMains_superposition_witness :
    (0 : ℝ) < (SimParams.init : SimParams ℝ).softening ∧
    (applyGravityFromMains Real.sqrt (touchingSat : Body ℝ) (demoState : SimState ℝ).mainA
      (demoState : SimState ℝ).mainB (demoState : SimState ℝ).mainA2
      (demoState : SimState ℝ).mainB2 SimParams.init (2 / 125)).x = (touchingSat : Body ℝ).x ∧
    (applyGravityFromMains Real.sqrt (touchingSat : Body ℝ) (demoState : SimState ℝ).mainA
      (demoState : SimState ℝ).mainB (demoState : SimState ℝ).mainA2
      (demoState : SimState ℝ).mainB2 SimParams.init (2 / 125)).vx =
      (touchingSat : Body ℝ).vx + 2 / 125 *
        ((SimParams.init : SimParams ℝ).mainSignA *
            gravityFactor SimParams.init (touchingSat : Body ℝ).eject_cooldown *
            (SimParams.init : SimParams ℝ).G * (demoState : SimState ℝ).mainA.mass *
            ((demoState : SimState ℝ).mainA.x - (touchingSat : Body ℝ).x) /
            (((demoState : SimState ℝ).mainA.x - (touchingSat : Body ℝ).x) ^ 2 +
              ((demoState : SimState ℝ).mainA.y - (touchingSat : Body ℝ).y) ^ 2 +
              (SimParams.init : SimParams ℝ).softening ^ 2) ^ ((3 : ℝ) / 2) +
         (SimParams.init : SimParams ℝ).mainSignB *
            gravityFactor SimParams.init (touchingSat : Body ℝ).eject_cooldown *
            (SimParams.init : SimParams ℝ).G * (demoState : SimState ℝ).mainB.mass *
            ((demoState : SimState ℝ).mainB.x - (touchingSat : Body ℝ).x) /
            (((demoState : SimState ℝ).mainB.x - (touchingSat : Body ℝ).x) ^ 2 +
              ((demoState : SimState ℝ).mainB.y - (touchingSat : Body ℝ).y) ^ 2 +
              (SimParams.init : SimParams ℝ).softening ^ 2) ^ ((3 : ℝ) / 2) +
         (SimParams.init : SimParams ℝ).mainSignA *
            gravityFactor SimParams.init (touchingSat : Body ℝ).eject_cooldown *
            (SimParams.init : SimParams ℝ).G * (demoState : SimState ℝ).mainA2.mass *
            ((demoState : SimState ℝ).mainA2.x - (touchingSat : Body ℝ).x) /
            (((demoState : SimState ℝ).mainA2.x - (touchingSat : Body ℝ).x) ^ 2 +
              ((demoState : SimState ℝ).mainA2.y - (touchingSat : Body ℝ).y) ^ 2 +
              (SimParams.init : SimParams ℝ).softening ^ 2) ^ ((3 : ℝ) / 2) +
         (SimParams.init : SimParams ℝ).mainSignB *
            gravityFactor SimParams.init (touchingSat : Body ℝ).eject_cooldown *
            (SimParams.init : SimParams ℝ).G * (demoState : SimState ℝ).mainB2.mass *
            ((demoState : SimState ℝ).mainB2.x - (touchingSat : Body ℝ).x) /
            (((demoState : SimState ℝ).mainB2.x - (touchingSat : Body ℝ).x) ^ 2 +
              ((demoState : SimState ℝ).mainB2.y - (touchingSat : Body ℝ).y) ^ 2 +
              (SimParams.init : SimParams ℝ).softening ^ 2) ^ ((3 : ℝ) / 2)) :=
  ⟨by norm_num [SimParams.init],
   (applyGravityFromMains_superposition (touchingSat : Body ℝ) (demoState : SimState ℝ).mainA
      (demoState : SimState ℝ).mainB (demoState : SimState ℝ).mainA2
      (demoState : SimState ℝ).mainB2 SimParams.init (2 / 125)
      (by norm_num [SimParams.init])).1,
   (applyGravityFromMains_superposition (touchingSat : Body ℝ) (demoState : SimState ℝ).mainA
      (demoState : SimState ℝ).mainB (demoState : SimState ℝ).mainA2
      (demoState : SimState ℝ).mainB2 SimParams.init (2 / 125)
      (by norm_num [SimParams.init])).2.2.2.2.2.2.2.1⟩

/-- C11 as stated fails: `--signA=0.5` is parsed to `0.5`, which `clampf`
leaves as it is, so after `parseArgs` the green sign is `0.5`, neither `+1`
nor `-1`. -/
theorem parseArgs_signs_counterexample :
    (parseArgs stofPlain stoiPlain halfSignArgv (SimParams.init : SimParams ℚ)).mainSignA =
      1 / 2 ∧
    ¬ ((parseArgs stofPlain stoiPlain halfSignArgv (SimParams.init : SimParams ℚ)).mainSignA = 1 ∨
       (parseArgs stofPlain stoiPlain halfSignArgv (SimParams.init : SimParams ℚ)).mainSignA =
         -1) := by
  have h : (parseArgs stofPlain stoiPlain halfSignArgv
      (SimParams.init : SimParams ℚ)).mainSignA = 1 / 2 := by decide!
  rw [h]
  norm_num

/-- C11, amended. After `parseArgs`, for every argument list (including any
`--signA=<value>` and `--signB=<value>`) and whatever `std::stof` and
`std::stoi` return, starting from the default `SimParams`, the resulting
`mainSignA` and `mainSignB` each lie in the interval `[-1, +1]`. -/
theorem parseArgs_signs (stof : List Char → Option F) (stoi : List Char → Option Int)
    (argv : List (List Char)) :
    (-1 ≤ (parseArgs stof stoi argv (SimParams.init : SimParams F)).mainSignA ∧
      (parseArgs stof stoi argv (SimParams.init : SimParams F)).mainSignA ≤ 1) ∧
    (-1 ≤ (parseArgs stof stoi argv (SimParams.init : SimParams F)).mainSignB ∧
      (parseArgs stof stoi argv (SimParams.init : SimParams F)).mainSignB ≤ 1) := by
  have h0 : signsBounded (SimParams.init : SimParams F) := by
    unfold signsBounded
    norm_num [SimParams.init]
  exact foldl_parseArg_signs stof stoi (argv.drop 1) SimParams.init h0

/-- C13. `step` never divides by zero: for every state, every `dt` and every
`SimParams` with `softening > 0` and positive main-body masses (the only
masses `step` divides by), the step with every division checked returns the
same state as `step`, so every division and reciprocal it evaluates has a
non-zero divisor.  In particular: in gravity
`r2 = dx² + dy² + softening² ≥ softening² > 0`, also when a satellite coincides
with a main; in `resolveElasticCollision` the division by `dist` is reached
only when `dist² > 0.0001`, and `1/m1 + 1/m2 > 0`; in `checkEject`
`d = sqrt(max(dist2, 1e-6)) > 0`; and the ramp divides by `ejectCooldownSec`
only when it is positive. -/
theorem step_no_zero_divisor (S : SimState ℝ) (p : SimParams ℝ) (dt : ℝ)
    (hs : 0 < p.softening)
    (hA : 0 < S.mainA.mass) (hB : 0 < S.mainB.mass)
    (hA2 : 0 < S.mainA2.mass) (hB2 : 0 < S.mainB2.mass) :
    stepChecked Real.sqrt S p dt = some (step Real.sqrt S p dt) ∧
    (∀ s M : Body ℝ,
      p.softening ^ 2 ≤
        (M.x - s.x) * (M.x - s.x) + (M.y - s.y) * (M.y - s.y) + p.softening * p.softening ∧
      0 < p.softening ^ 2 ∧
      0 < Real.sqrt
        ((M.x - s.x) * (M.x - s.x) + (M.y - s.y) * (M.y - s.y) + p.softening * p.softening)) ∧
    (∀ a b : Body ℝ,
      1 / 10000 < (b.x - a.x) * (b.x - a.x) + (b.y - a.y) * (b.y - a.y) →
      0 < Real.sqrt ((b.x - a.x) * (b.x - a.x) + (b.y - a.y) * (b.y - a.y))) ∧
    (∀ a b : Body ℝ, 0 < a.mass → 0 < b.mass → 0 < 1 / a.mass + 1 / b.mass) ∧
    (∀ s M : Body ℝ,
      0 < Real.sqrt
        (max ((s.x - M.x) * (s.x - M.x) + (s.y - M.y) * (s.y - M.y)) (1 / 1000000))) ∧
    (∀ c : ℝ, gravityFactorChecked p c = some (gravityFactor p c)) := by
  have hsqrt : ∀ x : ℝ, 0 < x → Real.sqrt x ≠ 0 :=
    fun x hx => ne_of_gt (Real.sqrt_pos.mpr hx)
  refine ⟨stepChecked_eq Real.sqrt S p dt hsqrt hs hA hB hA2 hB2, ?_, ?_, ?_, ?_,
    gravityFactorChecked_eq p⟩
  · intro s M
    refine ⟨?_, pow_pos hs 2, Real.sqrt_pos.mpr (softened_pos' s M p hs)⟩
    nlinarith [mul_self_nonneg (M.x - s.x), mul_self_nonneg (M.y - s.y)]
  · intro a b h
    exact Real.sqrt_pos.mpr (lt_trans (by norm_num) h)
  · intro a b ha hb
    exact add_pos (one_div_pos.mpr ha) (one_div_pos.mpr hb)
  · intro s M
    exact Real.sqrt_pos.mpr (lt_of_lt_of_le (by norm_num) (le_max_right _ _))

/-- Witness for C13: the demo state under the default parameters, with
`dt = 0.016`. -/
theorem step_no_zero_divisor_witness :
    (0 : ℝ) < (SimParams.init : SimParams ℝ).softening ∧
    stepChecked Real.sqrt (demoState : SimState ℝ) SimParams.init (2 / 125) =
      some (step Real.sqrt (demoState : SimState ℝ) SimParams.init (2 / 125)) :=
  ⟨by norm_num [SimParams.init],
   (step_no_zero_divisor (demoState : SimState ℝ) SimParams.init (2 / 125)
      (by norm_num [SimParams.init]) (by norm_num [demoState]) (by norm_num [demoState])
      (by norm_num [demoState]) (by norm_num [demoState])).1⟩

/-- C15. `resolveElasticCollision` conserves the kinetic energy of the pair:
for all bodies `a` and `b` with positive masses,
`(1/2)*a.mass*(a.vx² + a.vy²) + (1/2)*b.mass*(b.vx² + b.vy²)` has the same
value after the call as before it. -/
theorem resolveElasticCollision_energy (a b : Body ℝ) (ha : 0 < a.mass) (hb : 0 < b.mass) :
    1 / 2 * (resolveElasticCollision Real.sqrt a b).1.mass *
        ((resolveElasticCollision Real.sqrt a b).1.vx ^ 2 +
          (resolveElasticCollision Real.sqrt a b).1.vy ^ 2) +
      1 / 2 * (resolveElasticCollision Real.sqrt a b).2.mass *
        ((resolveElasticCollision Real.sqrt a b).2.vx ^ 2 +
          (resolveElasticCollision Real.sqrt a b).2.vy ^ 2) =
    1 / 2 * a.mass * (a.vx ^ 2 + a.vy ^ 2) + 1 / 2 * b.mass * (b.vx ^ 2 + b.vy ^ 2) := by
  simp only [resolveElasticCollision]
  split_ifs with h1 h2 h3
  · rfl
  · rfl
  · rfl
  · exact impulse_energy _ _ _ _ _ _ _ _ _ (ne_of_gt ha) (ne_of_gt hb)
      (normal_unit _ _ h1).2 (impulse_value _ _ _ ha hb)

/-- Witness for C15: the two default main bodies, overlapping and approaching
each other head-on. -/
theorem resolveElasticCollision_energy_witness :
    1 / 2 * (resolveElasticCollision Real.sqrt (headOnA : Body ℝ) headOnB).1.mass *
        ((resolveElasticCollision Real.sqrt (headOnA : Body ℝ) headOnB).1.vx ^ 2 +
          (resolveElasticCollision Real.sqrt (headOnA : Body ℝ) headOnB).1.vy ^ 2) +
      1 / 2 * (resolveElasticCollision Real.sqrt (headOnA : Body ℝ) headOnB).2.mass *
        ((resolveElasticCollision Real.sqrt (headOnA : Body ℝ) headOnB).2.vx ^ 2 +
          (resolveElasticCollision Real.sqrt (headOnA : Body ℝ) headOnB).2.vy ^ 2) =
    1 / 2 * (headOnA : Body ℝ).mass * ((headOnA : Body ℝ).vx ^ 2 + (headOnA : Body ℝ).vy ^ 2) +
      1 / 2 * (headOnB : Body ℝ).mass * ((headOnB : Body ℝ).vx ^ 2 + (headOnB : Body ℝ).vy ^ 2) :=
  resolveElasticCollision_energy headOnA headOnB (by norm_num [headOnA]) (by norm_num [headOnB])

end Claims

end Screensaver
